import Mathlib

/-!
Shallow embedding of the thread-processing pipeline of the ocr-bot repository
(src/lib/process-thread.ts, src/lib/slack.ts, src/lib/ocr.ts).

JavaScript strings are modelled as `List Char`; machine effects (Slack API and
blob store calls) are modelled by an explicit environment `Env` whose fields
give the outcome of each external call, and each run is a pure function of the
environment that also produces a `Trace` of the externally visible calls
(posted messages, message updates, ledger writes, extractor invocations).
-/

namespace OcrBot

/-- JavaScript strings are modelled as lists of characters. -/
abbrev Str := List Char

/-- Coerce a Lean string literal to the `List Char` model. -/
def str (s : String) : Str := s.data

/-- Model of a thrown JavaScript `Error`: only the `message` field matters to
the code (it is inspected with `.includes("msg_too_long")`). -/
structure JsError where
  message : Str
deriving DecidableEq

/-- `contentType` enum of `OCRResult` (src/lib/ocr.ts). -/
inductive ContentType where
  | website
  | document
  | photo
  | other
deriving DecidableEq

/-- `OCRResult` (src/lib/ocr.ts). Optional string fields are `Option Str`. -/
structure OCRResult where
  fileName : Str
  fileId : Str
  text : Str
  language : Str
  englishTranslation : Option Str
  originalText : Option Str
  noTextFound : Bool
  contentType : ContentType
deriving DecidableEq

/-- `SlackFile` (src/lib/slack.ts). -/
structure SlackFile where
  id : Str
  name : Str
  mimetype : Str
  url_private_download : Option Str
  url_private : Option Str
deriving DecidableEq

/-- `SlackMessage` (src/lib/slack.ts). -/
structure SlackMessage where
  ts : Str
  user : Option Str
  bot_id : Option Str
  text : Option Str
  files : Option (List SlackFile)
deriving DecidableEq

/-- Externally visible calls made by a run, in order. -/
inductive Event where
  | post (text : Str)
  | update (text : Str)
  | ledgerWrite (ids : List Str)
  | ocrCall (id : Str)
deriving DecidableEq

abbrev Trace := List Event

/-- The environment: outcome of every external call the pipeline can make.
`getMessages` is the result of `getThreadMessages`, `getLedger` of
`getProcessedFileIds`, `post` of `postMessageToThread` (returns the message
ts), `update` of `updateMessage` (keyed by the text submitted), `download` of
`downloadImage` (keyed by URL; the buffer is an opaque `Nat` token), `ocr` of
`performOCR` (buffer, name, id, mimetype), and `mark` of
`markFilesAsProcessed`. -/
structure Env where
  getMessages : Except JsError (List SlackMessage)
  getLedger : Except JsError (List Str)
  post : Str → Except JsError Str
  update : Str → Except JsError Unit
  download : Str → Except JsError Nat
  ocr : Nat → Str → Str → Str → Except JsError OCRResult
  mark : List Str → Except JsError Unit

/-! ### Constants and literal message texts (src/lib/process-thread.ts) -/

def MAX_IMAGES : Nat := 50

def SLACK_MAX_TEXT_LENGTH : Nat := 38000

def processingMsg : Str := str "Processing images... please wait."

def noImagesMsg : Str := str "No images found in this thread."

def alreadyProcessedMsg : Str :=
  str "All images in this thread have already been processed.\n_Tip: Use `@ocr force` to reprocess them._"

def failedAllMsg : Str := str "Failed to process any images. Please try again."

def truncationNotice : Str :=
  str "\n\n_Output was truncated because it exceeded Slack\x27s message length limit._"

def msgTooLongMarker : Str := str "msg_too_long"

/-- Decimal rendering of a number interpolated into a template literal. -/
def natStr (n : Nat) : Str := Nat.toDigits 10 n

/-- `Processing ${n} image${n > 1 ? "s" : ""}... please wait.` -/
def countMsg (n : Nat) : Str :=
  str "Processing " ++ natStr n ++ str " image"
    ++ (if n > 1 then str "s" else []) ++ str "... please wait."

/-- `Processing image ${i + 1} of ${total}... please wait.` -/
def progressMsg (i total : Nat) : Str :=
  str "Processing image " ++ natStr i ++ str " of " ++ natStr total
    ++ str "... please wait."

/-- `\n\n_Note: Limited to ${MAX_IMAGES} images per request. ${r} more images remain unprocessed._` -/
def capNote (remaining : Nat) : Str :=
  str "\n\n_Note: Limited to " ++ natStr MAX_IMAGES
    ++ str " images per request. " ++ natStr remaining
    ++ str " more images remain unprocessed._"

/-- `Processed ${results.length} images` -/
def processedMsg (n : Nat) : Str :=
  str "Processed " ++ natStr n ++ str " images"

/-- `Error processing images: ${error.message}. Please try again.` -/
def errorSummary (e : JsError) : Str :=
  str "Error processing images: " ++ e.message ++ str ". Please try again."

/-! ### JavaScript-semantics helpers -/

/-- `a.startsWith(b)` on JS strings. -/
def strStartsWith (s p : Str) : Bool := p.isPrefixOf s

/-- `s.includes(sub)`: some suffix of `s` has `sub` as a prefix. -/
def hasSubstr : Str → Str → Bool
  | [], sub => sub.isEmpty
  | c :: rest, sub => sub.isPrefixOf (c :: rest) || hasSubstr rest sub

/-- JS `a || b` on two optional strings: an empty string is falsy. -/
def jsOrStr : Option Str → Option Str → Option Str
  | some s, b => if s = [] then b else some s
  | none, b => b

/-- `const imageUrl = image.url_private_download || image.url_private` followed
by the `if (!imageUrl)` guard: the URL if it is truthy, otherwise `none`. -/
def jsUrl (image : SlackFile) : Option Str :=
  match jsOrStr image.url_private_download image.url_private with
  | none => none
  | some url => if url = [] then none else some url

/-- JS truthiness of an optional string. -/
def jsTruthy : Option Str → Bool
  | some s => !s.isEmpty
  | none => false

/-! ### findImagesInThread (src/lib/slack.ts) -/

/-- `findImagesInThread`: every file of every message whose mimetype starts
with `image/`, in message order. -/
def findImagesInThread (messages : List SlackMessage) : List SlackFile :=
  (messages.map (fun m =>
    (m.files.getD []).filter (fun f => strStartsWith f.mimetype (str "image/")))).flatten

/-- Modelled from the spec: `filterUnprocessedFiles` lives in src/lib/blob.ts,
which is not under src/. Spec §4.1 step 3: `unprocessed = allImages −
ledger.processedIds`, i.e. the files whose id is not among the already
processed ids. -/
def filterUnprocessedFiles (files : List SlackFile) (processedIds : List Str) :
    List SlackFile :=
  files.filter (fun f => !(decide (f.id ∈ processedIds)))

/-! ### formatOCRResultsForSlack (src/lib/ocr.ts) -/

/-- Body of `results.map(...)` in `formatOCRResultsForSlack`. -/
def formatOne (showHeader : Bool) (r : OCRResult) : Str :=
  let output := if showHeader then str "*" ++ r.fileName ++ str "*\n\n" else []
  if r.noTextFound then
    output ++ str "_No text found in image._"
  else if jsTruthy r.englishTranslation && jsTruthy r.originalText then
    output ++ str "*English Translation:*\n" ++ r.text
      ++ str "\n\n---\n\n*Original (" ++ r.language ++ str "):*\n"
      ++ r.originalText.getD []
  else
    output ++ r.text

/-- `formatOCRResultsForSlack` (src/lib/ocr.ts). -/
def formatOCRResultsForSlack (results : List OCRResult) : Str :=
  if results.length = 0 then str "No images found in this thread."
  else
    List.intercalate (str "\n\n---\n\n")
      (results.map (formatOne (decide (results.length > 1))))

/-- `ProcessThreadResult` (src/lib/process-thread.ts). -/
structure ProcessThreadResult where
  success : Bool
  message : Str
  processedCount : Nat
  skippedCount : Nat
deriving DecidableEq

/-! ### The per-item body of the batch loop (src/lib/process-thread.ts, loop at
lines 488–549). `processItem` is the body of the `try` block for one image:
resolve the download URL (skip the item when absent), download the bytes,
invoke the extractor. The trace records an `ocrCall` whenever `performOCR` is
invoked (also when it throws). -/

def processItem (env : Env) (image : SlackFile) (t : Trace) :
    Trace × Except JsError (Option OCRResult) :=
  match jsUrl image with
  | none => (t, .ok none)
  | some url =>
    match env.download url with
    | .error e => (t, .error e)
    | .ok buf =>
      match env.ocr buf image.name image.id image.mimetype with
      | .error e => (t ++ [Event.ocrCall image.id], .error e)
      | .ok r => (t ++ [Event.ocrCall image.id], .ok (some r))

/-- The value-level outcome of one item, independent of the trace:
`.ok (some r)` when the item succeeds, `.ok none` when it is skipped for lack
of a download URL, `.error e` when the download or the extraction throws. -/
def itemResult (env : Env) (image : SlackFile) : Except JsError (Option OCRResult) :=
  match jsUrl image with
  | none => .ok none
  | some url =>
    match env.download url with
    | .error e => .error e
    | .ok buf =>
      match env.ocr buf image.name image.id image.mimetype with
      | .error e => .error e
      | .ok r => .ok (some r)

/-- Trace events produced by one item. -/
def itemEvents (env : Env) (image : SlackFile) : Trace :=
  match jsUrl image with
  | none => []
  | some url =>
    match env.download url with
    | .error _ => []
    | .ok _ => [Event.ocrCall image.id]

/-- The `for` loop over `imagesToProcess` (src/lib/process-thread.ts lines
488–549): for each image, a progress update when more than one image is being
processed (this update is outside the `try`, so its failure escapes the loop),
then the item body with its exception caught and the item skipped
(`// Continue with other images`). Successes accumulate into `results` and
`processedIds` in parallel. -/
def processLoop (env : Env) (total : Nat) :
    List SlackFile → Nat → List OCRResult → List Str → Trace →
    Trace × Except JsError (List OCRResult × List Str)
  | [], _, results, ids, t => (t, .ok (results, ids))
  | image :: rest, i, results, ids, t =>
    let doItem := fun (t' : Trace) =>
      match processItem env image t' with
      | (t'', .ok (some r)) =>
        processLoop env total rest (i + 1) (results ++ [r]) (ids ++ [image.id]) t''
      | (t'', .ok none) => processLoop env total rest (i + 1) results ids t''
      | (t'', .error _) => processLoop env total rest (i + 1) results ids t''
    if total > 1 then
      match env.update (progressMsg (i + 1) total) with
      | .error e => (t ++ [Event.update (progressMsg (i + 1) total)], .error e)
      | .ok _ => doItem (t ++ [Event.update (progressMsg (i + 1) total)])
    else doItem t

/-! ### Size adaptation and the publish retry loop (lines 565–592) -/

/-- The halve-and-append step of the retry loop:
`response.slice(0, Math.floor(response.length / 2)) + truncationNotice`. -/
def halveStep (response : Str) : Str :=
  response.take (response.length / 2) ++ truncationNotice

/-- The pre-publish truncation (lines 565–572): a body longer than
`SLACK_MAX_TEXT_LENGTH` is cut to the limit minus the notice length and the
truncation notice is appended; otherwise the body is unchanged. -/
def adaptResponse (response : Str) : Str :=
  if response.length > SLACK_MAX_TEXT_LENGTH then
    response.take (SLACK_MAX_TEXT_LENGTH - truncationNotice.length) ++ truncationNotice
  else response

/-- The `while (!posted)` publish loop (lines 574–592), written with explicit
fuel so that it is structurally recursive; `publishLoop` below supplies enough
fuel, and `publishAttempts_congr` shows any sufficient fuel gives the same
run. Each attempt submits `response`; on a failure whose message contains
`msg_too_long` while the body is longer than 500 characters the body is halved
(with the truncation notice appended) and the attempt is repeated; any other
failure is propagated. -/
def publishAttempts (env : Env) (fuel : Nat) (response : Str) (t : Trace) :
    Trace × Except JsError Unit :=
  let t' := t ++ [Event.update response]
  match env.update response with
  | .ok _ => (t', .ok ())
  | .error e =>
    if hasSubstr e.message msgTooLongMarker && decide (response.length > 500) then
      match fuel with
      | 0 => (t', .error e)
      | f + 1 => publishAttempts env f (halveStep response) t'
    else (t', .error e)

/-- The publish loop with its fuel instantiated: each halving strictly
decreases the body length, so `response.length` attempts always suffice. -/
def publishLoop (env : Env) (response : Str) (t : Trace) :
    Trace × Except JsError Unit :=
  publishAttempts env response.length response t

/-! ### The tail of the happy path (lines 551–613) -/

/-- Lines 557–613: if any result exists, render it, append the cap note when
the cap truncated the set, truncate to the local limit, and publish through
the retry loop; otherwise update the status with the terminal failure
message. Either way return the summary record (`success: true`,
`processedCount = results.length`, `skippedCount = processedFileIds.length`). -/
def finishUp (env : Env) (processedFileIds : List Str) (limitReached : Bool)
    (unprocessedCount : Nat) (results : List OCRResult) (t : Trace) :
    Trace × Except JsError ProcessThreadResult :=
  if results.length = 0 then
    match env.update failedAllMsg with
    | .error e => (t ++ [Event.update failedAllMsg], .error e)
    | .ok _ =>
      (t ++ [Event.update failedAllMsg],
        .ok ⟨true, processedMsg results.length, results.length, processedFileIds.length⟩)
  else
    let response := formatOCRResultsForSlack results
    let response :=
      if limitReached then response ++ capNote (unprocessedCount - MAX_IMAGES)
      else response
    let response := adaptResponse response
    match publishLoop env response t with
    | (t', .error e) => (t', .error e)
    | (t', .ok _) =>
      (t', .ok ⟨true, processedMsg results.length, results.length, processedFileIds.length⟩)

/-- Lines 551–555: write the succeeding ids to the ledger when any exist, then
finish up. -/
def afterLoop (env : Env) (processedFileIds : List Str) (limitReached : Bool)
    (unprocessedCount : Nat) (results : List OCRResult) (processedIds : List Str)
    (t : Trace) : Trace × Except JsError ProcessThreadResult :=
  if processedIds.length = 0 then
    finishUp env processedFileIds limitReached unprocessedCount results t
  else
    match env.mark processedIds with
    | .error e => (t ++ [Event.ledgerWrite processedIds], .error e)
    | .ok _ =>
      finishUp env processedFileIds limitReached unprocessedCount results
        (t ++ [Event.ledgerWrite processedIds])

/-- Lines 468–549: cap the eligible set to `MAX_IMAGES`, remember whether the
cap truncated it, update the status with the count, and run the batch loop. -/
def continueProcessing (env : Env) (processedFileIds : List Str)
    (unprocessedImages : List SlackFile) (t : Trace) :
    Trace × Except JsError ProcessThreadResult :=
  let imagesToProcess := unprocessedImages.take MAX_IMAGES
  let limitReached := decide (unprocessedImages.length > MAX_IMAGES)
  match env.update (countMsg imagesToProcess.length) with
  | .error e => (t ++ [Event.update (countMsg imagesToProcess.length)], .error e)
  | .ok _ =>
    match processLoop env imagesToProcess.length imagesToProcess 0 [] []
        (t ++ [Event.update (countMsg imagesToProcess.length)]) with
    | (t', .error e) => (t', .error e)
    | (t', .ok (results, processedIds)) =>
      afterLoop env processedFileIds limitReached unprocessedImages.length
        results processedIds t'

/-- Steps 2–7 of `processThread` (the body of the outer `try`, lines
386–613): fetch the thread, find the images, consult the ledger unless in
force mode, and either return a terminal no-work record or continue into the
batch. -/
def processThreadBody (env : Env) (force : Bool) (t : Trace) :
    Trace × Except JsError ProcessThreadResult :=
  match env.getMessages with
  | .error e => (t, .error e)
  | .ok messages =>
    let allImages := findImagesInThread messages
    if allImages.length = 0 then
      match env.update noImagesMsg with
      | .error e => (t ++ [Event.update noImagesMsg], .error e)
      | .ok _ =>
        (t ++ [Event.update noImagesMsg], .ok ⟨true, str "No images found", 0, 0⟩)
    else
      if force then continueProcessing env [] allImages t
      else
        match env.getLedger with
        | .error e => (t, .error e)
        | .ok processedFileIds =>
          let unprocessedImages := filterUnprocessedFiles allImages processedFileIds
          if unprocessedImages.length = 0 then
            match env.update alreadyProcessedMsg with
            | .error e => (t ++ [Event.update alreadyProcessedMsg], .error e)
            | .ok _ =>
              (t ++ [Event.update alreadyProcessedMsg],
                .ok ⟨true, str "All images already processed", 0, allImages.length⟩)
          else continueProcessing env processedFileIds unprocessedImages t

/-- `processThread` (src/lib/process-thread.ts lines 357–634): post the
placeholder status message (propagating a failure of this first post), run the
pipeline, and on any exception escaping it attempt a best-effort status update
with an error summary — whose own outcome is ignored in both cases — before
re-raising the original error. -/
def processThread (env : Env) (force : Bool) :
    Trace × Except JsError ProcessThreadResult :=
  match env.post processingMsg with
  | .error e => ([Event.post processingMsg], .error e)
  | .ok _ts =>
    match processThreadBody env force [Event.post processingMsg] with
    | (t, .ok r) => (t, .ok r)
    | (t, .error e) =>
      match env.update (errorSummary e) with
      | .ok _ => (t ++ [Event.update (errorSummary e)], .error e)
      | .error _ => (t ++ [Event.update (errorSummary e)], .error e)

/-! ### The Ledger (spec-modelled) -/

/-- Modelled from the spec: `markFilesAsProcessed` lives in src/lib/blob.ts,
which is not under src/. Spec §4.3: `markProcessed` must
read-then-merge-then-write — the stored set becomes the union of the existing
set and the new ids, never an overwrite. The stored set is modelled as the
list of ids in first-recorded order. -/
def markProcessed (existing newIds : List Str) : List Str :=
  existing ++ newIds.filter (fun i => !(decide (i ∈ existing)))

/-- The ledger contents after a sequence of `markProcessed` writes starting
from `init`. -/
def ledgerAfter (init : List Str) (writes : List (List Str)) : List Str :=
  writes.foldl markProcessed init

/-! ### Derived descriptions of a run, used to state the claims -/

/-- Whether one item succeeds (download URL present, download and extraction
both succeed). -/
def itemOk (env : Env) (image : SlackFile) : Bool :=
  match itemResult env image with
  | .ok (some _) => true
  | _ => false

/-- Whether one item's download or extraction throws. -/
def itemThrows (env : Env) (image : SlackFile) : Bool :=
  match itemResult env image with
  | .error _ => true
  | _ => false

/-- The extraction records of the items that succeed, in order. -/
def successResults (env : Env) (imgs : List SlackFile) : List OCRResult :=
  imgs.filterMap (fun img =>
    match itemResult env img with
    | .ok (some r) => some r
    | _ => none)

/-- The ids of the items that succeed, in order. -/
def successIds (env : Env) (imgs : List SlackFile) : List Str :=
  imgs.filterMap (fun img =>
    match itemResult env img with
    | .ok (some _) => some img.id
    | _ => none)

/-- The trace events produced by the batch loop when every progress update
succeeds. -/
def loopEvents (env : Env) (total : Nat) : List SlackFile → Nat → Trace
  | [], _ => []
  | image :: rest, i =>
    (if total > 1 then [Event.update (progressMsg (i + 1) total)] else [])
      ++ itemEvents env image ++ loopEvents env total rest (i + 1)

/-- The eligible (unprocessed) image list: everything in force mode, the
ledger-filtered list otherwise. -/
def eligibleImages (force : Bool) (allImages : List SlackFile) (pids : List Str) :
    List SlackFile :=
  if force then allImages else filterUnprocessedFiles allImages pids

/-- The rendered body before the pre-publish truncation: the formatted results
plus, when the cap truncated the eligible set, the cap note. -/
def composedBody (limitReached : Bool) (unprocessedCount : Nat)
    (results : List OCRResult) : Str :=
  if limitReached then
    formatOCRResultsForSlack results ++ capNote (unprocessedCount - MAX_IMAGES)
  else formatOCRResultsForSlack results

/-- The ledger-write events of a run whose loop produced `successIds`. -/
def happyMark (env : Env) (unprocessed : List SlackFile) : Trace :=
  if (successIds env (unprocessed.take MAX_IMAGES)).length = 0 then []
  else [Event.ledgerWrite (successIds env (unprocessed.take MAX_IMAGES))]

/-- The final status update of a run with all publishes succeeding. -/
def happyFinal (env : Env) (unprocessed : List SlackFile) : Trace :=
  if (successResults env (unprocessed.take MAX_IMAGES)).length = 0 then
    [Event.update failedAllMsg]
  else
    [Event.update (adaptResponse (composedBody
      (decide (unprocessed.length > MAX_IMAGES)) unprocessed.length
      (successResults env (unprocessed.take MAX_IMAGES))))]

/-- The summary record of a run that reaches the batch loop. -/
def happyRecord (env : Env) (pids : List Str) (unprocessed : List SlackFile) :
    ProcessThreadResult :=
  { success := true
    message := processedMsg (successResults env (unprocessed.take MAX_IMAGES)).length
    processedCount := (successResults env (unprocessed.take MAX_IMAGES)).length
    skippedCount := pids.length }

/-- The trace of the pipeline body past the status post, for a run that
reaches the batch loop and whose external updates, ledger write and publish
all succeed. -/
def bodyEvents (env : Env) (unprocessed : List SlackFile) : Trace :=
  [Event.update (countMsg (unprocessed.take MAX_IMAGES).length)]
    ++ loopEvents env (unprocessed.take MAX_IMAGES).length (unprocessed.take MAX_IMAGES) 0
    ++ happyMark env unprocessed ++ happyFinal env unprocessed

/-- The whole trace of a run that reaches the batch loop and whose external
updates, ledger write and publish all succeed. -/
def happyTrace (env : Env) (unprocessed : List SlackFile) : Trace :=
  Event.post processingMsg :: bodyEvents env unprocessed

/-- Recognizer for status-message mutations in a trace. -/
def isUpdateEvent : Event → Bool
  | .update _ => true
  | _ => false

/-- Recognizer for ledger writes in a trace. -/
def isLedgerWriteEvent : Event → Bool
  | .ledgerWrite _ => true
  | _ => false

/-- Recognizer for extractor invocations in a trace. -/
def isOcrCallEvent : Event → Bool
  | .ocrCall _ => true
  | _ => false

/-! ### Concrete example data and environments -/

/-- A fixed successful extraction record used by the example environments. -/
def okres : OCRResult :=
  ⟨str "t.png", str "F", str "hello", str "English", none, none, false,
    ContentType.other⟩

/-- An image file with the given id and a working download URL. -/
def mkFile (id : Str) : SlackFile :=
  ⟨id, str "t.png", str "image/png", some (str "http://u/" ++ id), none⟩

/-- An image whose download URL deliberately fails in `exEnv`. -/
def badFile : SlackFile :=
  ⟨str "BAD", str "b.png", str "image/png", some (str "http://bad"), none⟩

/-- An environment whose thread holds the given files and whose ledger holds
the given ids; every call succeeds except downloading `badFile`. -/
def exEnv (files : List SlackFile) (pids : List Str) : Env :=
  { getMessages := .ok [⟨str "1", none, none, none, some files⟩]
    getLedger := .ok pids
    post := fun _ => .ok (str "ts")
    update := fun _ => .ok ()
    download := fun url =>
      if url = str "http://bad" then .error ⟨str "download failed"⟩ else .ok 0
    ocr := fun _ _ _ _ => .ok okres
    mark := fun _ => .ok () }

/-- An environment whose thread fetch throws and whose status updates also
fail. -/
def exEnvErr : Env :=
  { getMessages := .error ⟨str "boom"⟩
    getLedger := .ok []
    post := fun _ => .ok (str "ts")
    update := fun _ => .error ⟨str "update failed"⟩
    download := fun _ => .ok 0
    ocr := fun _ _ _ _ => .ok okres
    mark := fun _ => .ok () }

/-- An environment whose message platform rejects every text longer than 500
characters with the distinguishable too-long error. -/
def exEnvLong : Env :=
  { getMessages := .ok []
    getLedger := .ok []
    post := fun _ => .ok (str "ts")
    update := fun text =>
      if 500 < text.length then .error ⟨str "msg_too_long"⟩ else .ok ()
    download := fun _ => .ok 0
    ocr := fun _ _ _ _ => .ok okres
    mark := fun _ => .ok () }

/-- An extraction record whose 800-character text makes the rendered body of a
capped batch of 50 overflow the local length limit. -/
def longres : OCRResult :=
  ⟨str "t.png", str "F", List.replicate 800 'a', str "English", none, none,
    false, ContentType.other⟩

/-- The 51 image files of the oversized-output run. -/
def bigFiles : List SlackFile := (List.range 51).map (fun i => mkFile (natStr i))

/-- The thread messages of the oversized-output run. -/
def bigMsgs : List SlackMessage := [⟨str "1", none, none, none, some bigFiles⟩]

/-- Environment with 51 eligible images whose extraction each returns
`longres`: the rendered body of the capped 50 exceeds the local limit, so the
pre-publish truncation cuts the tail off — where the cap note had just been
appended. -/
def bigEnv : Env :=
  { getMessages := .ok bigMsgs
    getLedger := .ok []
    post := fun _ => .ok (str "ts")
    update := fun _ => .ok ()
    download := fun _ => .ok 0
    ocr := fun _ _ _ _ => .ok longres
    mark := fun _ => .ok () }

/-- The final status text published by the `bigEnv` run. -/
def bigFinal : Str :=
  adaptResponse (composedBody
    (decide ((eligibleImages false (findImagesInThread bigMsgs) []).length
      > MAX_IMAGES))
    (eligibleImages false (findImagesInThread bigMsgs) []).length
    (successResults bigEnv
      ((eligibleImages false (findImagesInThread bigMsgs) []).take MAX_IMAGES)))

/-! ### Basic lemmas about the building blocks -/

theorem processItem_eq (env : Env) (image : SlackFile) (t : Trace) :
    processItem env image t = (t ++ itemEvents env image, itemResult env image) := by
  unfold processItem itemEvents itemResult
  cases hu : jsUrl image with
  | none => simp
  | some url =>
    cases hd : env.download url with
    | error e => simp [hd]
    | ok buf =>
      cases ho : env.ocr buf image.name image.id image.mimetype with
      | error e => simp [hd, ho]
      | ok r => simp [hd, ho]

theorem processLoop_ok (env : Env) (total : Nat)
    (hupd : ∀ text, env.update text = .ok ()) :
    ∀ (imgs : List SlackFile) (i : Nat) (results : List OCRResult)
      (ids : List Str) (t : Trace),
      processLoop env total imgs i results ids t =
        (t ++ loopEvents env total imgs i,
          .ok (results ++ successResults env imgs, ids ++ successIds env imgs)) := by
  intro imgs
  induction imgs with
  | nil =>
    intro i results ids t
    simp [processLoop, loopEvents, successResults, successIds]
  | cons image rest ih =>
    intro i results ids t
    unfold processLoop
    simp only [hupd, processItem_eq]
    have hstep : ∀ t' : Trace,
        (match (t' ++ itemEvents env image, itemResult env image) with
          | (t'', .ok (some r)) =>
            processLoop env total rest (i + 1) (results ++ [r]) (ids ++ [image.id]) t''
          | (t'', .ok none) => processLoop env total rest (i + 1) results ids t''
          | (t'', .error _) => processLoop env total rest (i + 1) results ids t'') =
        (t' ++ itemEvents env image ++ loopEvents env total rest (i + 1),
          .ok (results ++ successResults env (image :: rest),
            ids ++ successIds env (image :: rest))) := by
      intro t'
      cases hr : itemResult env image with
      | ok o =>
        cases o with
        | some r => simp [ih, successResults, successIds, List.filterMap_cons, hr]
        | none => simp [ih, successResults, successIds, List.filterMap_cons, hr]
      | error e => simp [ih, successResults, successIds, List.filterMap_cons, hr]
    by_cases htot : total > 1
    · simp only [htot, if_true, hupd, hstep, loopEvents]
      simp [htot, List.append_assoc]
    · simp only [htot, if_false, hstep, loopEvents]
      simp [htot, List.append_assoc]

theorem truncationNotice_le : truncationNotice.length ≤ 250 := by decide

/-- One halve-and-retry step strictly decreases the body length whenever the
body is above the 500-character floor. -/
theorem halveStep_lt (response : Str) (h : 500 < response.length) :
    (halveStep response).length < response.length := by
  have hn : truncationNotice.length ≤ 250 := truncationNotice_le
  simp only [halveStep, List.length_append, List.length_take]
  omega

/-- Branch equation: the platform accepts the text. -/
theorem publishAttempts_ok_eq (env : Env) (fuel : Nat) (response : Str) (t : Trace)
    (h : env.update response = .ok ()) :
    publishAttempts env fuel response t = (t ++ [Event.update response], .ok ()) := by
  conv_lhs => unfold publishAttempts
  rw [h]

/-- Branch equation: a failure that is not retried (not the too-long marker, or
the body is at the 500-character floor) is propagated. -/
theorem publishAttempts_stop_eq (env : Env) (fuel : Nat) (response : Str) (t : Trace)
    (e : JsError) (h : env.update response = .error e)
    (hstop : hasSubstr e.message msgTooLongMarker = false ∨ response.length ≤ 500) :
    publishAttempts env fuel response t = (t ++ [Event.update response], .error e) := by
  conv_lhs => unfold publishAttempts
  rw [h]
  simp only []
  rcases hstop with hm | hl
  · simp [hm]
  · have hn : ¬(500 < response.length) := by omega
    simp [hn]

/-- Branch equation: a too-long failure above the floor halves and retries. -/
theorem publishAttempts_retry_eq (env : Env) (f : Nat) (response : Str) (t : Trace)
    (e : JsError) (h : env.update response = .error e)
    (hm : hasSubstr e.message msgTooLongMarker = true)
    (h500 : 500 < response.length) :
    publishAttempts env (f + 1) response t =
      publishAttempts env f (halveStep response) (t ++ [Event.update response]) := by
  conv_lhs => unfold publishAttempts
  rw [h]
  simp [hm, h500]

/-- Branch equation: exhausted fuel stops with the error (never reached from
`publishLoop`, whose fuel is sufficient). -/
theorem publishAttempts_zero_eq (env : Env) (response : Str) (t : Trace)
    (e : JsError) (h : env.update response = .error e) :
    publishAttempts env 0 response t = (t ++ [Event.update response], .error e) := by
  conv_lhs => unfold publishAttempts
  rw [h]
  simp only []
  by_cases hc : hasSubstr e.message msgTooLongMarker = true ∧ 500 < response.length
  · simp [hc.1, hc.2]
  · simp [hc]

theorem publishAttempts_frame (env : Env) :
    ∀ (fuel : Nat) (response : Str) (t : Trace),
      publishAttempts env fuel response t =
        (t ++ (publishAttempts env fuel response []).1,
          (publishAttempts env fuel response []).2) := by
  intro fuel
  induction fuel with
  | zero =>
    intro response t
    cases h : env.update response with
    | ok u =>
      cases u
      rw [publishAttempts_ok_eq env 0 response t h,
        publishAttempts_ok_eq env 0 response [] h]
      simp
    | error e =>
      rw [publishAttempts_zero_eq env response t e h,
        publishAttempts_zero_eq env response [] e h]
      simp
  | succ f ih =>
    intro response t
    cases h : env.update response with
    | ok u =>
      cases u
      rw [publishAttempts_ok_eq env (f + 1) response t h,
        publishAttempts_ok_eq env (f + 1) response [] h]
      simp
    | error e =>
      by_cases hc : hasSubstr e.message msgTooLongMarker = true ∧ 500 < response.length
      · rw [publishAttempts_retry_eq env f response t e h hc.1 hc.2,
          publishAttempts_retry_eq env f response [] e h hc.1 hc.2,
          ih (halveStep response) (t ++ [Event.update response]),
          ih (halveStep response) ([] ++ [Event.update response])]
        simp
      · have hstop : hasSubstr e.message msgTooLongMarker = false ∨ response.length ≤ 500 := by
          rcases Bool.eq_false_or_eq_true (hasSubstr e.message msgTooLongMarker) with hm | hm
          · exact Or.inr (by by_contra hx; exact hc ⟨hm, by omega⟩)
          · exact Or.inl hm
        rw [publishAttempts_stop_eq env (f + 1) response t e h hstop,
          publishAttempts_stop_eq env (f + 1) response [] e h hstop]
        simp

/-- Any two sufficient fuels give the same run of the publish loop. -/
theorem publishAttempts_congr (env : Env) :
    ∀ (f₁ : Nat) (response : Str) (f₂ : Nat) (t : Trace),
      response.length ≤ f₁ → response.length ≤ f₂ →
      publishAttempts env f₁ response t = publishAttempts env f₂ response t := by
  intro f₁
  induction f₁ with
  | zero =>
    intro response f₂ t h1 _h2
    have hlen : response.length = 0 := Nat.le_zero.mp h1
    cases h : env.update response with
    | ok u =>
      cases u
      rw [publishAttempts_ok_eq env 0 response t h,
        publishAttempts_ok_eq env f₂ response t h]
    | error e =>
      have hstop : hasSubstr e.message msgTooLongMarker = false ∨ response.length ≤ 500 :=
        Or.inr (by omega)
      rw [publishAttempts_zero_eq env response t e h,
        publishAttempts_stop_eq env f₂ response t e h hstop]
  | succ f ih =>
    intro response f₂ t h1 h2
    cases h : env.update response with
    | ok u =>
      cases u
      rw [publishAttempts_ok_eq env (f + 1) response t h,
        publishAttempts_ok_eq env f₂ response t h]
    | error e =>
      by_cases hc : hasSubstr e.message msgTooLongMarker = true ∧ 500 < response.length
      · have hd := halveStep_lt response hc.2
        cases f₂ with
        | zero => omega
        | succ g =>
          rw [publishAttempts_retry_eq env f response t e h hc.1 hc.2,
            publishAttempts_retry_eq env g response t e h hc.1 hc.2]
          exact ih (halveStep response) g _ (by omega) (by omega)
      · have hstop : hasSubstr e.message msgTooLongMarker = false ∨ response.length ≤ 500 := by
          rcases Bool.eq_false_or_eq_true (hasSubstr e.message msgTooLongMarker) with hm | hm
          · exact Or.inr (by by_contra hx; exact hc ⟨hm, by omega⟩)
          · exact Or.inl hm
        rw [publishAttempts_stop_eq env (f + 1) response t e h hstop,
          publishAttempts_stop_eq env f₂ response t e h hstop]

/-- When the platform accepts the text, the publish loop posts it once. -/
theorem publishLoop_ok (env : Env) (response : Str) (t : Trace)
    (h : env.update response = .ok ()) :
    publishLoop env response t = (t ++ [Event.update response], .ok ()) := by
  unfold publishLoop
  exact publishAttempts_ok_eq env response.length response t h

/-- The publish loop always submits the given body as its first attempt. -/
theorem publishLoop_first (env : Env) (response : Str) (t : Trace) :
    ∃ rest res,
      publishLoop env response t = (t ++ Event.update response :: rest, res) := by
  unfold publishLoop
  cases h : env.update response with
  | ok u =>
    cases u
    rw [publishAttempts_ok_eq env response.length response t h]
    exact ⟨[], .ok (), by simp⟩
  | error e =>
    by_cases hc : hasSubstr e.message msgTooLongMarker = true ∧ 500 < response.length
    · obtain ⟨f, hf⟩ : ∃ f, response.length = f + 1 := ⟨response.length - 1, by omega⟩
      rw [hf, publishAttempts_retry_eq env f response t e h hc.1 hc.2,
        publishAttempts_frame env f (halveStep response) (t ++ [Event.update response])]
      exact ⟨(publishAttempts env f (halveStep response) []).1,
        (publishAttempts env f (halveStep response) []).2, by simp⟩
    · have hstop : hasSubstr e.message msgTooLongMarker = false ∨ response.length ≤ 500 := by
        rcases Bool.eq_false_or_eq_true (hasSubstr e.message msgTooLongMarker) with hm | hm
        · exact Or.inr (by by_contra hx; exact hc ⟨hm, by omega⟩)
        · exact Or.inl hm
      rw [publishAttempts_stop_eq env response.length response t e h hstop]
      exact ⟨[], .error e, by simp⟩

/-! ### Characterization of a run that reaches the batch loop -/

theorem finishUp_ok (env : Env) (pids : List Str) (limitReached : Bool)
    (unprocN : Nat) (results : List OCRResult) (t : Trace)
    (hupd : ∀ text, env.update text = .ok ()) :
    finishUp env pids limitReached unprocN results t =
      (t ++ (if results.length = 0 then [Event.update failedAllMsg]
             else [Event.update (adaptResponse (composedBody limitReached unprocN results))]),
        .ok ⟨true, processedMsg results.length, results.length, pids.length⟩) := by
  unfold finishUp
  by_cases hres : results.length = 0
  · simp [hres, hupd failedAllMsg]
  · rw [if_neg hres, if_neg hres]
    simp only []
    rw [publishLoop_ok env _ t (hupd _)]
    simp [composedBody]

theorem afterLoop_ok (env : Env) (pids : List Str) (limitReached : Bool)
    (unprocN : Nat) (results : List OCRResult) (ids : List Str) (t : Trace)
    (hupd : ∀ text, env.update text = .ok ())
    (hmark : ∀ l, env.mark l = .ok ()) :
    afterLoop env pids limitReached unprocN results ids t =
      (t ++ (if ids.length = 0 then [] else [Event.ledgerWrite ids])
         ++ (if results.length = 0 then [Event.update failedAllMsg]
             else [Event.update (adaptResponse (composedBody limitReached unprocN results))]),
        .ok ⟨true, processedMsg results.length, results.length, pids.length⟩) := by
  unfold afterLoop
  by_cases hid : ids.length = 0
  · rw [if_pos hid]
    rw [finishUp_ok env pids limitReached unprocN results t hupd]
    simp [hid]
  · rw [if_neg hid, hmark ids]
    simp only []
    rw [finishUp_ok env pids limitReached unprocN results _ hupd]
    simp [hid]

theorem continueProcessing_ok (env : Env) (pids : List Str)
    (unprocessed : List SlackFile) (t : Trace)
    (hupd : ∀ text, env.update text = .ok ())
    (hmark : ∀ l, env.mark l = .ok ()) :
    continueProcessing env pids unprocessed t =
      (t ++ bodyEvents env unprocessed, .ok (happyRecord env pids unprocessed)) := by
  unfold continueProcessing
  simp only []
  rw [hupd (countMsg (unprocessed.take MAX_IMAGES).length)]
  simp only []
  rw [processLoop_ok env (unprocessed.take MAX_IMAGES).length hupd
    (unprocessed.take MAX_IMAGES) 0 [] [] _]
  simp only [List.nil_append]
  rw [afterLoop_ok env pids _ unprocessed.length
    (successResults env (unprocessed.take MAX_IMAGES))
    (successIds env (unprocessed.take MAX_IMAGES)) _ hupd hmark]
  simp [bodyEvents, happyMark, happyFinal, happyRecord, List.append_assoc]

theorem processThreadBody_happy (env : Env) (force : Bool)
    (msgs : List SlackMessage) (pids : List Str) (t : Trace)
    (hmsgs : env.getMessages = .ok msgs)
    (hne : findImagesInThread msgs ≠ [])
    (hledger : force = false → env.getLedger = .ok pids)
    (hpids0 : force = true → pids = [])
    (hun : eligibleImages force (findImagesInThread msgs) pids ≠ [])
    (hupd : ∀ text, env.update text = .ok ())
    (hmark : ∀ l, env.mark l = .ok ()) :
    processThreadBody env force t =
      (t ++ bodyEvents env (eligibleImages force (findImagesInThread msgs) pids),
        .ok (happyRecord env pids (eligibleImages force (findImagesInThread msgs) pids))) := by
  have hne' : ¬((findImagesInThread msgs).length = 0) := by
    simpa [List.length_eq_zero] using hne
  unfold processThreadBody
  rw [hmsgs]
  simp only []
  rw [if_neg hne']
  cases force with
  | true =>
    obtain rfl := hpids0 rfl
    rw [if_pos rfl]
    rw [continueProcessing_ok env [] (findImagesInThread msgs) t hupd hmark]
    simp [eligibleImages]
  | false =>
    rw [if_neg Bool.false_ne_true, hledger rfl]
    simp only []
    have hun' : ¬((filterUnprocessedFiles (findImagesInThread msgs) pids).length = 0) := by
      simpa [eligibleImages, List.length_eq_zero] using hun
    rw [if_neg hun']
    rw [continueProcessing_ok env pids
      (filterUnprocessedFiles (findImagesInThread msgs) pids) t hupd hmark]
    simp [eligibleImages]

/-- Full characterization of a run that reaches the batch loop and whose
status post, status updates, ledger write and publish all succeed. -/
theorem processThread_happy (env : Env) (force : Bool) (ts : Str)
    (msgs : List SlackMessage) (pids : List Str)
    (hpost : env.post processingMsg = .ok ts)
    (hmsgs : env.getMessages = .ok msgs)
    (hne : findImagesInThread msgs ≠ [])
    (hledger : force = false → env.getLedger = .ok pids)
    (hpids0 : force = true → pids = [])
    (hun : eligibleImages force (findImagesInThread msgs) pids ≠ [])
    (hupd : ∀ text, env.update text = .ok ())
    (hmark : ∀ l, env.mark l = .ok ()) :
    processThread env force =
      (happyTrace env (eligibleImages force (findImagesInThread msgs) pids),
        .ok (happyRecord env pids (eligibleImages force (findImagesInThread msgs) pids))) := by
  unfold processThread
  rw [hpost]
  simp only []
  rw [processThreadBody_happy env force msgs pids _ hmsgs hne hledger hpids0 hun hupd hmark]
  simp [happyTrace]

/-! ### Lemmas about success lists and loop events -/

theorem itemOk_iff (env : Env) (img : SlackFile) :
    itemOk env img = true ↔ ∃ r, itemResult env img = .ok (some r) := by
  unfold itemOk
  cases hr : itemResult env img with
  | error e => simp
  | ok o => cases o <;> simp

theorem successResults_cons_ok (env : Env) (img : SlackFile) (rest : List SlackFile)
    (r : OCRResult) (h : itemResult env img = .ok (some r)) :
    successResults env (img :: rest) = r :: successResults env rest := by
  simp [successResults, List.filterMap_cons, h]

theorem successIds_cons_ok (env : Env) (img : SlackFile) (rest : List SlackFile)
    (r : OCRResult) (h : itemResult env img = .ok (some r)) :
    successIds env (img :: rest) = img.id :: successIds env rest := by
  simp [successIds, List.filterMap_cons, h]

theorem successResults_cons_throws (env : Env) (img : SlackFile)
    (rest : List SlackFile) (h : itemThrows env img = true) :
    successResults env (img :: rest) = successResults env rest := by
  unfold itemThrows at h
  cases hr : itemResult env img with
  | error e => simp [successResults, List.filterMap_cons, hr]
  | ok o => rw [hr] at h; cases o <;> simp at h

theorem successIds_cons_throws (env : Env) (img : SlackFile)
    (rest : List SlackFile) (h : itemThrows env img = true) :
    successIds env (img :: rest) = successIds env rest := by
  unfold itemThrows at h
  cases hr : itemResult env img with
  | error e => simp [successIds, List.filterMap_cons, hr]
  | ok o => rw [hr] at h; cases o <;> simp at h

theorem successResults_append (env : Env) (l₁ l₂ : List SlackFile) :
    successResults env (l₁ ++ l₂) = successResults env l₁ ++ successResults env l₂ := by
  simp [successResults, List.filterMap_append]

theorem successIds_append (env : Env) (l₁ l₂ : List SlackFile) :
    successIds env (l₁ ++ l₂) = successIds env l₁ ++ successIds env l₂ := by
  simp [successIds, List.filterMap_append]

theorem successResults_length_of_all_ok (env : Env) :
    ∀ imgs : List SlackFile, (∀ img ∈ imgs, itemOk env img = true) →
      (successResults env imgs).length = imgs.length := by
  intro imgs
  induction imgs with
  | nil => intro _; simp [successResults]
  | cons img rest ih =>
    intro h
    obtain ⟨r, hr⟩ := (itemOk_iff env img).mp (h img (by simp))
    rw [successResults_cons_ok env img rest r hr]
    simp [ih (fun i hi => h i (by simp [hi]))]

theorem successIds_of_all_ok (env : Env) :
    ∀ imgs : List SlackFile, (∀ img ∈ imgs, itemOk env img = true) →
      successIds env imgs = imgs.map (fun img => img.id) := by
  intro imgs
  induction imgs with
  | nil => intro _; simp [successIds]
  | cons img rest ih =>
    intro h
    obtain ⟨r, hr⟩ := (itemOk_iff env img).mp (h img (by simp))
    rw [successIds_cons_ok env img rest r hr]
    simp [ih (fun i hi => h i (by simp [hi]))]

theorem itemEvents_updates (env : Env) (image : SlackFile) :
    (itemEvents env image).filter isUpdateEvent = [] := by
  unfold itemEvents
  cases hu : jsUrl image with
  | none => simp
  | some url =>
    cases hd : env.download url with
    | error e => simp [hd]
    | ok b => simp [hd, isUpdateEvent]

/-- With more than one image, the status-update events of the batch loop are
exactly the per-item progress messages, in order. -/
theorem loopEvents_updates_of_gt (env : Env) (total : Nat) (htot : total > 1) :
    ∀ (imgs : List SlackFile) (i : Nat),
      (loopEvents env total imgs i).filter isUpdateEvent =
        (List.range imgs.length).map
          (fun j => Event.update (progressMsg (i + j + 1) total)) := by
  intro imgs
  induction imgs with
  | nil => intro i; simp [loopEvents]
  | cons image rest ih =>
    intro i
    simp only [loopEvents]
    rw [if_pos htot]
    rw [List.filter_append, List.filter_append, itemEvents_updates, ih (i + 1)]
    have hr : (List.range rest.length).map
        (fun j => Event.update (progressMsg (i + 1 + j + 1) total)) =
        (List.range rest.length).map
          (fun j => Event.update (progressMsg (i + (j + 1) + 1) total)) := by
      apply List.map_congr_left
      intro j _
      have : i + 1 + j + 1 = i + (j + 1) + 1 := by omega
      rw [this]
    rw [hr]
    simp [List.range_succ_eq_map, List.map_map, isUpdateEvent, Function.comp]

/-- With a single image, the batch loop makes no status update at all. -/
theorem loopEvents_updates_of_one (env : Env) :
    ∀ (imgs : List SlackFile) (i : Nat),
      (loopEvents env 1 imgs i).filter isUpdateEvent = [] := by
  intro imgs
  induction imgs with
  | nil => intro i; simp [loopEvents]
  | cons image rest ih =>
    intro i
    simp only [loopEvents]
    rw [if_neg (by omega)]
    rw [List.filter_append, List.filter_append, itemEvents_updates, ih (i + 1)]
    simp

/-! ### Lemmas about the pre-publish truncation -/

theorem adaptResponse_short (response : Str)
    (h : response.length ≤ SLACK_MAX_TEXT_LENGTH) :
    adaptResponse response = response := by
  unfold adaptResponse
  rw [if_neg (by omega)]

theorem adaptResponse_long_eq (response : Str)
    (h : SLACK_MAX_TEXT_LENGTH < response.length) :
    adaptResponse response =
      response.take (SLACK_MAX_TEXT_LENGTH - truncationNotice.length)
        ++ truncationNotice := by
  unfold adaptResponse
  rw [if_pos (by omega)]

theorem adaptResponse_long_length (response : Str)
    (h : SLACK_MAX_TEXT_LENGTH < response.length) :
    (adaptResponse response).length = SLACK_MAX_TEXT_LENGTH := by
  rw [adaptResponse_long_eq response h]
  have hn := truncationNotice_le
  simp only [List.length_append, List.length_take]
  have hL : SLACK_MAX_TEXT_LENGTH = 38000 := rfl
  omega

theorem adaptResponse_long_suffix (response : Str)
    (h : SLACK_MAX_TEXT_LENGTH < response.length) :
    truncationNotice <:+ adaptResponse response := by
  rw [adaptResponse_long_eq response h]
  exact List.suffix_append _ _

/-! ### The `success` field on every non-throwing path -/

theorem finishUp_success (env : Env) (pids : List Str) (lr : Bool) (un : Nat)
    (results : List OCRResult) (t tr : Trace) (r : ProcessThreadResult)
    (h : finishUp env pids lr un results t = (tr, .ok r)) : r.success = true := by
  unfold finishUp at h
  by_cases hres : results.length = 0
  · rw [if_pos hres] at h
    cases hu : env.update failedAllMsg with
    | error e => rw [hu] at h; simp at h
    | ok u =>
      cases u
      rw [hu] at h
      simp only [Prod.mk.injEq, Except.ok.injEq] at h
      rw [← h.2]
  · rw [if_neg hres] at h
    simp only [] at h
    rcases hpub : publishLoop env
        (adaptResponse
          (if lr then formatOCRResultsForSlack results ++ capNote (un - MAX_IMAGES)
           else formatOCRResultsForSlack results)) t with ⟨t', res⟩
    rw [hpub] at h
    cases res with
    | error e => simp at h
    | ok u =>
      cases u
      simp only [Prod.mk.injEq, Except.ok.injEq] at h
      rw [← h.2]

theorem afterLoop_success (env : Env) (pids : List Str) (lr : Bool) (un : Nat)
    (results : List OCRResult) (ids : List Str) (t tr : Trace)
    (r : ProcessThreadResult)
    (h : afterLoop env pids lr un results ids t = (tr, .ok r)) : r.success = true := by
  unfold afterLoop at h
  by_cases hid : ids.length = 0
  · rw [if_pos hid] at h
    exact finishUp_success env pids lr un results t tr r h
  · rw [if_neg hid] at h
    cases hm : env.mark ids with
    | error e => rw [hm] at h; simp at h
    | ok u =>
      cases u
      rw [hm] at h
      exact finishUp_success env pids lr un results _ tr r h

theorem continueProcessing_success (env : Env) (pids : List Str)
    (unprocessed : List SlackFile) (t tr : Trace) (r : ProcessThreadResult)
    (h : continueProcessing env pids unprocessed t = (tr, .ok r)) :
    r.success = true := by
  unfold continueProcessing at h
  simp only [] at h
  cases hu : env.update (countMsg (unprocessed.take MAX_IMAGES).length) with
  | error e => rw [hu] at h; simp at h
  | ok u =>
    cases u
    rw [hu] at h
    rcases hloop : processLoop env (unprocessed.take MAX_IMAGES).length
        (unprocessed.take MAX_IMAGES) 0 [] []
        (t ++ [Event.update (countMsg (unprocessed.take MAX_IMAGES).length)])
      with ⟨t', res⟩
    rw [hloop] at h
    cases res with
    | error e => simp at h
    | ok p =>
      rcases p with ⟨results, processedIds⟩
      exact afterLoop_success env pids _ _ results processedIds t' tr r h

theorem processThreadBody_success (env : Env) (force : Bool) (t tr : Trace)
    (r : ProcessThreadResult)
    (h : processThreadBody env force t = (tr, .ok r)) : r.success = true := by
  unfold processThreadBody at h
  cases hm : env.getMessages with
  | error e => rw [hm] at h; simp at h
  | ok messages =>
    rw [hm] at h
    simp only [] at h
    by_cases hz : (findImagesInThread messages).length = 0
    · rw [if_pos hz] at h
      cases hu : env.update noImagesMsg with
      | error e => rw [hu] at h; simp at h
      | ok u =>
        cases u
        rw [hu] at h
        simp only [Prod.mk.injEq, Except.ok.injEq] at h
        rw [← h.2]
    · rw [if_neg hz] at h
      cases force with
      | true =>
        rw [if_pos rfl] at h
        exact continueProcessing_success env [] _ t tr r h
      | false =>
        rw [if_neg Bool.false_ne_true] at h
        cases hl : env.getLedger with
        | error e => rw [hl] at h; simp at h
        | ok pids =>
          rw [hl] at h
          simp only [] at h
          by_cases hz2 : (filterUnprocessedFiles (findImagesInThread messages) pids).length = 0
          · rw [if_pos hz2] at h
            cases hu : env.update alreadyProcessedMsg with
            | error e => rw [hu] at h; simp at h
            | ok u =>
              cases u
              rw [hu] at h
              simp only [Prod.mk.injEq, Except.ok.injEq] at h
              rw [← h.2]
          · rw [if_neg hz2] at h
            exact continueProcessing_success env pids _ t tr r h

/-! ### The already-processed terminal path -/

/-- The run of `processThread` on a thread whose images are all already in the
ledger: one status post, one terminal update, nothing else. -/
theorem processThread_alreadyProcessed (env : Env) (ts : Str)
    (msgs : List SlackMessage) (pids : List Str)
    (hpost : env.post processingMsg = .ok ts)
    (hmsgs : env.getMessages = .ok msgs)
    (hne : findImagesInThread msgs ≠ [])
    (hledger : env.getLedger = .ok pids)
    (hall : filterUnprocessedFiles (findImagesInThread msgs) pids = [])
    (hupd : env.update alreadyProcessedMsg = .ok ()) :
    processThread env false =
      ([Event.post processingMsg, Event.update alreadyProcessedMsg],
        .ok ⟨true, str "All images already processed", 0,
          (findImagesInThread msgs).length⟩) := by
  have hne' : ¬((findImagesInThread msgs).length = 0) := by
    simpa [List.length_eq_zero] using hne
  unfold processThread
  rw [hpost]
  simp only []
  unfold processThreadBody
  rw [hmsgs]
  simp only []
  rw [if_neg hne', if_neg Bool.false_ne_true, hledger]
  simp only []
  rw [hall]
  simp only [List.length_nil, if_pos rfl]
  rw [hupd]
  simp

/-! ### Further trace bookkeeping lemmas -/

theorem loopEvents_no_ledger (env : Env) (total : Nat) :
    ∀ (imgs : List SlackFile) (i : Nat),
      (loopEvents env total imgs i).filter isLedgerWriteEvent = [] := by
  intro imgs
  induction imgs with
  | nil => intro i; simp [loopEvents]
  | cons image rest ih =>
    intro i
    simp only [loopEvents]
    rw [List.filter_append, List.filter_append, ih (i + 1)]
    have h1 : (itemEvents env image).filter isLedgerWriteEvent = [] := by
      unfold itemEvents
      cases hu : jsUrl image with
      | none => simp
      | some url =>
        cases hd : env.download url with
        | error e => simp [hd]
        | ok b => simp [hd, isLedgerWriteEvent]
    rw [h1]
    by_cases htot : total > 1
    · simp [htot, isLedgerWriteEvent]
    · simp [htot]

theorem getLast?_cons_concat {α : Type} (a x : α) (l : List α) :
    (a :: (l ++ [x])).getLast? = some x := by
  have h : a :: (l ++ [x]) = (a :: l) ++ [x] := rfl
  rw [h, List.getLast?_concat]

/-- `processedCount` counts exactly the items of the batch that succeed. -/
theorem successResults_length_filter (env : Env) :
    ∀ imgs : List SlackFile,
      (successResults env imgs).length =
        (imgs.filter (fun img => itemOk env img)).length := by
  intro imgs
  induction imgs with
  | nil => simp [successResults]
  | cons img rest ih =>
    cases hr : itemResult env img with
    | error e =>
      simp [successResults, List.filterMap_cons, List.filter_cons, itemOk, hr] at ih ⊢
      exact ih
    | ok o =>
      cases o with
      | some r =>
        simp [successResults, List.filterMap_cons, List.filter_cons, itemOk, hr] at ih ⊢
        exact ih
      | none =>
        simp [successResults, List.filterMap_cons, List.filter_cons, itemOk, hr] at ih ⊢
        exact ih

/-- The terminal status update of a happy run. -/
theorem happyTrace_getLast (env : Env) (u : List SlackFile) :
    (happyTrace env u).getLast? =
      some (if (successResults env (u.take MAX_IMAGES)).length = 0 then
          Event.update failedAllMsg
        else
          Event.update (adaptResponse (composedBody
            (decide (u.length > MAX_IMAGES)) u.length
            (successResults env (u.take MAX_IMAGES))))) := by
  unfold happyTrace bodyEvents happyFinal
  by_cases hc : (successResults env (u.take MAX_IMAGES)).length = 0
  · rw [if_pos hc, if_pos hc]
    rw [show ([Event.update (countMsg (u.take MAX_IMAGES).length)]
        ++ loopEvents env (u.take MAX_IMAGES).length (u.take MAX_IMAGES) 0
        ++ happyMark env u ++ [Event.update failedAllMsg]) =
      ((Event.update (countMsg (u.take MAX_IMAGES).length) ::
        (loopEvents env (u.take MAX_IMAGES).length (u.take MAX_IMAGES) 0
          ++ happyMark env u)) ++ [Event.update failedAllMsg]) by simp]
    exact getLast?_cons_concat _ _ _
  · rw [if_neg hc, if_neg hc]
    rw [show ([Event.update (countMsg (u.take MAX_IMAGES).length)]
        ++ loopEvents env (u.take MAX_IMAGES).length (u.take MAX_IMAGES) 0
        ++ happyMark env u ++ [Event.update (adaptResponse (composedBody
            (decide (u.length > MAX_IMAGES)) u.length
            (successResults env (u.take MAX_IMAGES))))]) =
      ((Event.update (countMsg (u.take MAX_IMAGES).length) ::
        (loopEvents env (u.take MAX_IMAGES).length (u.take MAX_IMAGES) 0
          ++ happyMark env u)) ++ [Event.update (adaptResponse (composedBody
            (decide (u.length > MAX_IMAGES)) u.length
            (successResults env (u.take MAX_IMAGES))))]) by simp]
    exact getLast?_cons_concat _ _ _

/-- The ledger writes of a happy run are exactly the `happyMark` events. -/
theorem happyTrace_ledgerWrites (env : Env) (u : List SlackFile) :
    (happyTrace env u).filter isLedgerWriteEvent = happyMark env u := by
  unfold happyTrace bodyEvents
  rw [List.filter_cons]
  simp only [isLedgerWriteEvent]
  rw [List.filter_append, List.filter_append, List.filter_append]
  rw [loopEvents_no_ledger env _ (u.take MAX_IMAGES) 0]
  have h1 : ([Event.update (countMsg (u.take MAX_IMAGES).length)]).filter
      isLedgerWriteEvent = [] := by simp [isLedgerWriteEvent]
  have h2 : (happyMark env u).filter isLedgerWriteEvent = happyMark env u := by
    unfold happyMark
    by_cases hid : (successIds env (u.take MAX_IMAGES)).length = 0
    · simp [hid]
    · simp [hid, isLedgerWriteEvent]
  have h3 : (happyFinal env u).filter isLedgerWriteEvent = [] := by
    unfold happyFinal
    by_cases hres : (successResults env (u.take MAX_IMAGES)).length = 0
    · simp [hres, isLedgerWriteEvent]
    · simp [hres, isLedgerWriteEvent]
  rw [h1, h2, h3]
  simp

/-- The status-message mutations of a happy run: the count update, the per-item
progress updates (absent for a single-image batch), and the terminal update. -/
theorem happyTrace_updates (env : Env) (u : List SlackFile)
    (hne : (u.take MAX_IMAGES).length ≠ 0) :
    (happyTrace env u).filter isUpdateEvent =
      Event.update (countMsg (u.take MAX_IMAGES).length)
        :: ((if 1 < (u.take MAX_IMAGES).length then
              (List.range (u.take MAX_IMAGES).length).map
                (fun j => Event.update (progressMsg (j + 1) (u.take MAX_IMAGES).length))
            else [])
          ++ happyFinal env u) := by
  unfold happyTrace bodyEvents
  rw [List.filter_cons]
  simp only [isUpdateEvent]
  rw [List.filter_append, List.filter_append, List.filter_append]
  have h2 : (happyMark env u).filter isUpdateEvent = [] := by
    unfold happyMark
    by_cases hid : (successIds env (u.take MAX_IMAGES)).length = 0
    · simp [hid]
    · simp [hid, isUpdateEvent]
  have h3 : (happyFinal env u).filter isUpdateEvent = happyFinal env u := by
    unfold happyFinal
    by_cases hres : (successResults env (u.take MAX_IMAGES)).length = 0
    · simp [hres, isUpdateEvent]
    · simp [hres, isUpdateEvent]
  rw [h2, h3]
  by_cases htot : 1 < (u.take MAX_IMAGES).length
  · rw [if_pos htot]
    rw [loopEvents_updates_of_gt env _ htot (u.take MAX_IMAGES) 0]
    simp [isUpdateEvent]
  · rw [if_neg htot]
    have h1 : (u.take MAX_IMAGES).length = 1 := by omega
    rw [h1] at *
    rw [loopEvents_updates_of_one env (u.take MAX_IMAGES) 0]
    simp [isUpdateEvent, h1]

/-! ### Ledger lemmas (spec-modelled, see `markProcessed`) -/

theorem markProcessed_mem (existing newIds : List Str) (x : Str) :
    x ∈ markProcessed existing newIds ↔ x ∈ existing ∨ x ∈ newIds := by
  simp only [markProcessed, List.mem_append, List.mem_filter,
    Bool.not_eq_eq_eq_not, Bool.not_true, decide_eq_false_iff_not]
  tauto

theorem ledgerAfter_superset :
    ∀ (writes : List (List Str)) (init : List Str) (x : Str),
      x ∈ init → x ∈ ledgerAfter init writes := by
  intro writes
  induction writes with
  | nil => intro init x hx; simpa [ledgerAfter] using hx
  | cons w ws ih =>
    intro init x hx
    have h1 : x ∈ markProcessed init w := (markProcessed_mem init w x).mpr (Or.inl hx)
    simpa [ledgerAfter, List.foldl_cons] using ih (markProcessed init w) x h1

theorem ledgerAfter_append (init : List Str) (a b : List (List Str)) :
    ledgerAfter init (a ++ b) = ledgerAfter (ledgerAfter init a) b := by
  simp [ledgerAfter, List.foldl_append]

/-! ### Claim theorems -/

/-- C5 — Ledger monotonicity: `markProcessed` merges (union with the existing
set, never an overwrite): every previously recorded id survives every write,
membership after a write is exactly membership before or among the new ids,
and along any sequence of writes the recorded set at step `i` is contained in
the recorded set at any later step `j`. -/
theorem ledger_monotonicity :
    (∀ (existing newIds : List Str) (x : Str), x ∈ existing →
      x ∈ markProcessed existing newIds)
    ∧ (∀ (existing newIds : List Str) (x : Str),
      x ∈ markProcessed existing newIds ↔ x ∈ existing ∨ x ∈ newIds)
    ∧ (∀ (init : List Str) (writes : List (List Str)) (i j : Nat), i ≤ j →
      ∀ x ∈ ledgerAfter init (writes.take i), x ∈ ledgerAfter init (writes.take j)) := by
  refine ⟨fun existing newIds x hx =>
      (markProcessed_mem existing newIds x).mpr (Or.inl hx),
    fun existing newIds x => markProcessed_mem existing newIds x,
    fun init writes i j hij x hx => ?_⟩
  have hsplit : writes.take j = writes.take i ++ ((writes.drop i).take (j - i)) := by
    rw [← List.take_add]
    congr 1
    omega
  rw [hsplit, ledgerAfter_append]
  exact ledgerAfter_superset _ _ x hx

/-- Witness for C5 at concrete inputs. -/
theorem ledger_monotonicity_witness :
    str "a" ∈ markProcessed [str "a"] [str "b"]
    ∧ str "b" ∈ ledgerAfter [] ([[str "b"], [str "c"]].take 2) := by
  refine ⟨ledger_monotonicity.1 [str "a"] [str "b"] (str "a") (by decide), ?_⟩
  exact ledger_monotonicity.2.2 [] [[str "b"], [str "c"]] 1 2 (by decide)
    (str "b") (by decide)

/-- C7 — Unrecoverable-failure handling: whenever the pipeline body (steps
2–7) throws after the initial status post succeeded, `processThread` attempts
one status update carrying the error summary and re-raises the original
error; the outcome of that status update is ignored (the theorem holds for
every environment, including those whose update of the summary fails), so a
failure of the update cannot mask the original error. -/
theorem unrecoverable_failure_handling (env : Env) (force : Bool) (ts : Str)
    (t : Trace) (e : JsError)
    (hpost : env.post processingMsg = .ok ts)
    (hbody : processThreadBody env force [Event.post processingMsg] = (t, .error e)) :
    processThread env force = (t ++ [Event.update (errorSummary e)], .error e) := by
  unfold processThread
  rw [hpost]
  simp only []
  rw [hbody]
  cases hu : env.update (errorSummary e) <;> simp [hu]

/-- Witness for C7: the thread fetch throws and the error-summary update
itself also fails, yet the original error is re-raised. -/
theorem unrecoverable_failure_handling_witness :
    processThread exEnvErr false =
      ([Event.post processingMsg] ++ [Event.update (errorSummary ⟨str "boom"⟩)],
        .error ⟨str "boom"⟩) :=
  unrecoverable_failure_handling exEnvErr false (str "ts")
    [Event.post processingMsg] ⟨str "boom"⟩ rfl rfl

/-- C9 — On every execution path of `processThread` that does not throw, the
returned record has `success = true`, including the path where every item
fails; the field never distinguishes a run that processed nothing from a
successful run. -/
theorem success_field_constant (env : Env) (force : Bool) (tr : Trace)
    (r : ProcessThreadResult)
    (h : processThread env force = (tr, .ok r)) : r.success = true := by
  unfold processThread at h
  cases hp : env.post processingMsg with
  | error e => rw [hp] at h; simp at h
  | ok ts =>
    rw [hp] at h
    simp only [] at h
    rcases hb : processThreadBody env force [Event.post processingMsg] with ⟨t, res⟩
    rw [hb] at h
    cases res with
    | ok r' =>
      simp only [Prod.mk.injEq, Except.ok.injEq] at h
      rw [← h.2]
      exact processThreadBody_success env force _ t r' hb
    | error e =>
      simp only [] at h
      cases hu : env.update (errorSummary e) with
      | ok u => rw [hu] at h; simp at h
      | error e2 => rw [hu] at h; simp at h

/-- Witness for C9 at a concrete no-images run. -/
theorem success_field_constant_witness :
    (⟨true, str "No images found", 0, 0⟩ : ProcessThreadResult).success = true :=
  success_field_constant (exEnv [] []) false
    ([Event.post processingMsg] ++ [Event.update noImagesMsg])
    ⟨true, str "No images found", 0, 0⟩ rfl

/-- C3 — Halve-and-retry with floor: when a publish attempt fails with the
distinguishable too-long condition and the body is longer than 500
characters, the loop halves the body (appending the truncation notice) and
retries; with the too-long condition at or below the 500-character floor the
error is propagated; any other failure is propagated immediately; the halve
step strictly decreases the length above the floor (so the loop terminates);
and an accepted body ends the loop. -/
theorem halve_and_retry (env : Env) (response : Str) (e : JsError)
    (h : env.update response = .error e) :
    (hasSubstr e.message msgTooLongMarker = true → 500 < response.length →
      ∀ t : Trace, publishLoop env response t =
        publishLoop env (halveStep response) (t ++ [Event.update response]))
    ∧ (hasSubstr e.message msgTooLongMarker = true → response.length ≤ 500 →
      ∀ t : Trace, publishLoop env response t =
        (t ++ [Event.update response], .error e))
    ∧ (hasSubstr e.message msgTooLongMarker = false →
      ∀ t : Trace, publishLoop env response t =
        (t ++ [Event.update response], .error e))
    ∧ (500 < response.length → (halveStep response).length < response.length)
    ∧ halveStep response = response.take (response.length / 2) ++ truncationNotice
    ∧ (∀ (r2 : Str) (t : Trace), env.update r2 = .ok () →
      publishLoop env r2 t = (t ++ [Event.update r2], .ok ())) := by
  refine ⟨?_, ?_, ?_, fun hl => halveStep_lt response hl, rfl,
    fun r2 t h2 => publishLoop_ok env r2 t h2⟩
  · intro hm hl t
    unfold publishLoop
    obtain ⟨f, hf⟩ : ∃ f, response.length = f + 1 := ⟨response.length - 1, by omega⟩
    rw [hf, publishAttempts_retry_eq env f response t e h hm hl]
    apply publishAttempts_congr
    · have hd := halveStep_lt response hl
      omega
    · exact le_refl _
  · intro _hm hl t
    exact publishAttempts_stop_eq env _ response t e h (Or.inr hl)
  · intro hm t
    exact publishAttempts_stop_eq env _ response t e h (Or.inl hm)

set_option maxRecDepth 8000 in
/-- Witness for C3: a 501-character body rejected as too long is halved and
retried, and the halve step shrinks it. -/
theorem halve_and_retry_witness :
    publishLoop exEnvLong (List.replicate 501 'a') [] =
      publishLoop exEnvLong (halveStep (List.replicate 501 'a'))
        [Event.update (List.replicate 501 'a')]
    ∧ (halveStep (List.replicate 501 'a')).length < 501 := by
  have hlen : (List.replicate 501 'a' : Str).length = 501 := by
    rw [List.length_replicate]
  have h : exEnvLong.update (List.replicate 501 'a') =
      .error ⟨str "msg_too_long"⟩ := by
    show (if 500 < (List.replicate 501 'a' : Str).length then
      (Except.error ⟨str "msg_too_long"⟩ : Except JsError Unit)
      else Except.ok ()) = Except.error ⟨str "msg_too_long"⟩
    rw [if_pos (by omega)]
  have hthm := halve_and_retry exEnvLong (List.replicate 501 'a')
    ⟨str "msg_too_long"⟩ h
  refine ⟨hthm.1 (by decide) (by omega) [], ?_⟩
  have h2 := hthm.2.2.2.1 (by omega)
  rw [hlen] at h2
  exact h2

/-- C2 — Size adaptation before publish: a rendered body longer than the local
limit is never submitted unmodified — before the first publish attempt it is
cut to the limit minus the reserved notice length with the truncation notice
appended, so the submitted text has length at most the limit and ends with
the visible notice; a body within the limit is submitted unchanged; and the
publish loop's first attempt submits exactly the adapted body. -/
theorem size_adaptation (response : Str)
    (h : SLACK_MAX_TEXT_LENGTH < response.length) :
    adaptResponse response =
        response.take (SLACK_MAX_TEXT_LENGTH - truncationNotice.length)
          ++ truncationNotice
    ∧ (adaptResponse response).length ≤ SLACK_MAX_TEXT_LENGTH
    ∧ truncationNotice <:+ adaptResponse response
    ∧ (∀ r2 : Str, r2.length ≤ SLACK_MAX_TEXT_LENGTH → adaptResponse r2 = r2)
    ∧ (∀ (env : Env) (t : Trace), ∃ rest res,
        publishLoop env (adaptResponse response) t =
          (t ++ Event.update (adaptResponse response) :: rest, res)) :=
  ⟨adaptResponse_long_eq response h,
    le_of_eq (adaptResponse_long_length response h),
    adaptResponse_long_suffix response h,
    fun r2 h2 => adaptResponse_short r2 h2,
    fun env t => publishLoop_first env _ t⟩

/-- Witness for C2: a 38001-character body is adapted to within the limit, and
a short body is left unchanged. -/
theorem size_adaptation_witness :
    (adaptResponse (List.replicate 38001 'a')).length ≤ SLACK_MAX_TEXT_LENGTH
    ∧ adaptResponse (str "hi") = str "hi" := by
  have h : SLACK_MAX_TEXT_LENGTH < (List.replicate 38001 'a' : Str).length := by
    rw [List.length_replicate]
    norm_num [SLACK_MAX_TEXT_LENGTH]
  exact ⟨(size_adaptation (List.replicate 38001 'a') h).2.1,
    (size_adaptation (List.replicate 38001 'a') h).2.2.2.1 (str "hi") (by decide)⟩

/-- C4 — Idempotence of a completed run: on a thread whose image set is fully
recorded in the ledger, a second run with `force = false` returns
`processedCount = 0` and `skippedCount = allImages.length`, its trace holds no
extractor call and no ledger write, and its terminal status update is the
"already processed" message, which mentions the force-mode escape hatch. -/
theorem idempotent_second_run (env : Env) (ts : Str)
    (msgs : List SlackMessage) (pids : List Str)
    (hpost : env.post processingMsg = .ok ts)
    (hmsgs : env.getMessages = .ok msgs)
    (hne : findImagesInThread msgs ≠ [])
    (hledger : env.getLedger = .ok pids)
    (hall : filterUnprocessedFiles (findImagesInThread msgs) pids = [])
    (hupd : env.update alreadyProcessedMsg = .ok ()) :
    processThread env false =
      ([Event.post processingMsg, Event.update alreadyProcessedMsg],
        .ok ⟨true, str "All images already processed", 0,
          (findImagesInThread msgs).length⟩)
    ∧ ([Event.post processingMsg, Event.update alreadyProcessedMsg]).filter
        isOcrCallEvent = []
    ∧ ([Event.post processingMsg, Event.update alreadyProcessedMsg]).filter
        isLedgerWriteEvent = []
    ∧ hasSubstr alreadyProcessedMsg (str "force") = true :=
  ⟨processThread_alreadyProcessed env ts msgs pids hpost hmsgs hne hledger hall hupd,
    by decide, by decide, by decide⟩

/-- Witness for C4: one image, already in the ledger. -/
theorem idempotent_second_run_witness :
    processThread (exEnv [mkFile (str "F1")] [str "F1"]) false =
      ([Event.post processingMsg, Event.update alreadyProcessedMsg],
        .ok ⟨true, str "All images already processed", 0,
          (findImagesInThread
            [⟨str "1", none, none, none, some [mkFile (str "F1")]⟩]).length⟩)
    ∧ (findImagesInThread
        [⟨str "1", none, none, none, some [mkFile (str "F1")]⟩]).length = 1 :=
  ⟨(idempotent_second_run (exEnv [mkFile (str "F1")] [str "F1"]) (str "ts")
      [⟨str "1", none, none, none, some [mkFile (str "F1")]⟩] [str "F1"]
      rfl rfl (by decide) rfl (by decide) rfl).1,
    by decide⟩

/-- C1 — Per-item failure isolation: in a run whose eligible batch is
`pre ++ bad :: post` (at most the cap) where every item of `pre ++ post`
succeeds and `bad`'s download or extraction throws, the run completes without
the exception escaping, `processedCount = N - 1`, the single ledger write
carries exactly the ids of `pre ++ post` (no failed id), and the final status
update renders exactly the succeeding results. -/
theorem per_item_isolation (env : Env) (force : Bool) (ts : Str)
    (msgs : List SlackMessage) (pids : List Str)
    (pre post : List SlackFile) (bad : SlackFile)
    (hpost : env.post processingMsg = .ok ts)
    (hmsgs : env.getMessages = .ok msgs)
    (hne : findImagesInThread msgs ≠ [])
    (hledger : force = false → env.getLedger = .ok pids)
    (hpids0 : force = true → pids = [])
    (helig : eligibleImages force (findImagesInThread msgs) pids = pre ++ bad :: post)
    (hcap : (pre ++ bad :: post).length ≤ MAX_IMAGES)
    (hok : ∀ img ∈ pre ++ post, itemOk env img = true)
    (hbad : itemThrows env bad = true)
    (hupd : ∀ text, env.update text = .ok ())
    (hmark : ∀ l, env.mark l = .ok ()) :
    (processThread env force).2 =
        .ok ⟨true, processedMsg ((pre ++ bad :: post).length - 1),
          (pre ++ bad :: post).length - 1, pids.length⟩
    ∧ ((processThread env force).1).filter isLedgerWriteEvent =
        (if (pre ++ post).length = 0 then []
         else [Event.ledgerWrite ((pre ++ post).map (fun img => img.id))])
    ∧ ((processThread env force).1).getLast? =
        some (if (pre ++ post).length = 0 then Event.update failedAllMsg
          else Event.update (adaptResponse
            (formatOCRResultsForSlack (successResults env (pre ++ post))))) := by
  have hun : eligibleImages force (findImagesInThread msgs) pids ≠ [] := by
    rw [helig]; simp
  have hthm := processThread_happy env force ts msgs pids hpost hmsgs hne hledger
    hpids0 hun hupd hmark
  rw [helig] at hthm
  have htake : (pre ++ bad :: post).take MAX_IMAGES = pre ++ bad :: post :=
    List.take_of_length_le hcap
  have hokpre : ∀ i ∈ pre, itemOk env i = true := fun i hi => hok i (by simp [hi])
  have hokpost : ∀ i ∈ post, itemOk env i = true := fun i hi => hok i (by simp [hi])
  have hsr : successResults env (pre ++ bad :: post) =
      successResults env pre ++ successResults env post := by
    rw [successResults_append, successResults_cons_throws env bad post hbad]
  have hsr2 : successResults env (pre ++ post) =
      successResults env pre ++ successResults env post :=
    successResults_append env pre post
  have hKpp : (successResults env ((pre ++ bad :: post).take MAX_IMAGES)).length =
      (pre ++ post).length := by
    rw [htake, hsr]
    simp [successResults_length_of_all_ok env pre hokpre,
      successResults_length_of_all_ok env post hokpost]
  have hK : (successResults env ((pre ++ bad :: post).take MAX_IMAGES)).length =
      (pre ++ bad :: post).length - 1 := by
    rw [hKpp]
    simp only [List.length_append, List.length_cons]
    omega
  have hids : successIds env ((pre ++ bad :: post).take MAX_IMAGES) =
      (pre ++ post).map (fun img => img.id) := by
    rw [htake, successIds_append, successIds_cons_throws env bad post hbad,
      successIds_of_all_ok env pre hokpre, successIds_of_all_ok env post hokpost]
    simp
  have hlim : decide ((pre ++ bad :: post).length > MAX_IMAGES) = false := by
    simp only [decide_eq_false_iff_not]
    omega
  refine ⟨?_, ?_, ?_⟩
  · rw [hthm]
    show Except.ok (happyRecord env pids (pre ++ bad :: post)) = _
    unfold happyRecord
    rw [hK]
  · rw [hthm]
    show (happyTrace env (pre ++ bad :: post)).filter isLedgerWriteEvent = _
    rw [happyTrace_ledgerWrites]
    unfold happyMark
    rw [hids]
    simp only [List.length_map]
  · rw [hthm]
    show (happyTrace env (pre ++ bad :: post)).getLast? = _
    rw [happyTrace_getLast]
    rw [hKpp, hlim]
    by_cases hz : (pre ++ post).length = 0
    · rw [if_pos hz, if_pos hz]
    · rw [if_neg hz, if_neg hz]
      unfold composedBody
      rw [if_neg Bool.false_ne_true]
      rw [htake, hsr, ← hsr2]

/-- Witness for C1: three eligible images, the middle one's download throws;
the run succeeds with two processed and the failed id excluded. -/
theorem per_item_isolation_witness :
    (processThread (exEnv [mkFile (str "F1"), badFile, mkFile (str "F3")] [])
        false).2 =
      .ok ⟨true, processedMsg 2, 2, 0⟩ :=
  (per_item_isolation (exEnv [mkFile (str "F1"), badFile, mkFile (str "F3")] [])
    false (str "ts")
    [⟨str "1", none, none, none,
      some [mkFile (str "F1"), badFile, mkFile (str "F3")]⟩] []
    [mkFile (str "F1")] [mkFile (str "F3")] badFile
    rfl rfl (by decide) (fun _ => rfl) (fun _ => rfl) (by decide) (by decide)
    (by decide) (by decide) (fun _ => rfl) (fun _ => rfl)).1

/-- C6 (amended) — Cap enforcement: when more than `MAX_IMAGES` eligible
images remain and the capped batch succeeds, exactly the first `MAX_IMAGES`
are processed and the single ledger write carries exactly their ids; and,
provided the rendered body with the cap note fits the local limit, the final
status update ends with the cap note referencing the number of remaining
images. (Without that proviso the note can be lost: the pre-publish
truncation cuts the tail where the note was appended — see
the counterexample for the original claim.) -/
theorem cap_enforcement (env : Env) (force : Bool) (ts : Str)
    (msgs : List SlackMessage) (pids : List Str)
    (hpost : env.post processingMsg = .ok ts)
    (hmsgs : env.getMessages = .ok msgs)
    (hne : findImagesInThread msgs ≠ [])
    (hledger : force = false → env.getLedger = .ok pids)
    (hpids0 : force = true → pids = [])
    (hcap : MAX_IMAGES <
      (eligibleImages force (findImagesInThread msgs) pids).length)
    (hok : ∀ img ∈ (eligibleImages force (findImagesInThread msgs) pids).take
      MAX_IMAGES, itemOk env img = true)
    (hfit : (formatOCRResultsForSlack (successResults env
          ((eligibleImages force (findImagesInThread msgs) pids).take MAX_IMAGES))
        ++ capNote ((eligibleImages force (findImagesInThread msgs) pids).length
          - MAX_IMAGES)).length ≤ SLACK_MAX_TEXT_LENGTH)
    (hupd : ∀ text, env.update text = .ok ())
    (hmark : ∀ l, env.mark l = .ok ()) :
    (processThread env force).2 =
        .ok ⟨true, processedMsg MAX_IMAGES, MAX_IMAGES, pids.length⟩
    ∧ ((processThread env force).1).filter isLedgerWriteEvent =
        [Event.ledgerWrite
          (((eligibleImages force (findImagesInThread msgs) pids).take
            MAX_IMAGES).map (fun img => img.id))]
    ∧ ((processThread env force).1).getLast? =
        some (Event.update (formatOCRResultsForSlack (successResults env
            ((eligibleImages force (findImagesInThread msgs) pids).take MAX_IMAGES))
          ++ capNote ((eligibleImages force (findImagesInThread msgs) pids).length
            - MAX_IMAGES))) := by
  set u := eligibleImages force (findImagesInThread msgs) pids with hu
  have hun : u ≠ [] := by
    intro hx
    rw [hx] at hcap
    have hM : MAX_IMAGES = 50 := rfl
    rw [List.length_nil, hM] at hcap
    omega
  have hthm := processThread_happy env force ts msgs pids hpost hmsgs hne hledger
    hpids0 hun hupd hmark
  have htlen : (u.take MAX_IMAGES).length = MAX_IMAGES := by
    rw [List.length_take]
    omega
  have hK : (successResults env (u.take MAX_IMAGES)).length = MAX_IMAGES := by
    rw [successResults_length_of_all_ok env (u.take MAX_IMAGES) hok, htlen]
  have hids : successIds env (u.take MAX_IMAGES) =
      (u.take MAX_IMAGES).map (fun img => img.id) :=
    successIds_of_all_ok env (u.take MAX_IMAGES) hok
  have hlim : decide (u.length > MAX_IMAGES) = true := decide_eq_true hcap
  have hbody : composedBody (decide (u.length > MAX_IMAGES)) u.length
      (successResults env (u.take MAX_IMAGES)) =
      formatOCRResultsForSlack (successResults env (u.take MAX_IMAGES))
        ++ capNote (u.length - MAX_IMAGES) := by
    rw [hlim]
    unfold composedBody
    rw [if_pos rfl]
  refine ⟨?_, ?_, ?_⟩
  · rw [hthm]
    show Except.ok (happyRecord env pids u) = _
    unfold happyRecord
    rw [hK]
  · rw [hthm]
    show (happyTrace env u).filter isLedgerWriteEvent = _
    rw [happyTrace_ledgerWrites]
    unfold happyMark
    rw [hids]
    rw [if_neg (by rw [List.length_map, htlen]; decide)]
  · rw [hthm]
    show (happyTrace env u).getLast? = _
    rw [happyTrace_getLast]
    rw [hK]
    rw [if_neg (by decide)]
    rw [hbody]
    rw [adaptResponse_short _ hfit]

set_option maxRecDepth 1000000 in
/-- Witness for C6: 51 eligible images against the cap of 50 — exactly 50 are
processed and one remains. -/
theorem cap_enforcement_witness :
    (processThread
        (exEnv ((List.range 51).map (fun i => mkFile (natStr i))) []) false).2 =
      .ok ⟨true, processedMsg MAX_IMAGES, MAX_IMAGES, 0⟩ :=
  (cap_enforcement
    (exEnv ((List.range 51).map (fun i => mkFile (natStr i))) []) false
    (str "ts")
    [⟨str "1", none, none, none,
      some ((List.range 51).map (fun i => mkFile (natStr i)))⟩] []
    rfl rfl (by decide) (fun _ => rfl) (fun _ => rfl) (by decide) (by decide)
    (by decide) (fun _ => rfl) (fun _ => rfl)).1

/-! ### Lemmas for the oversized-output run -/

theorem intercalate_singleton_eq {α : Type} (sep x : List α) :
    List.intercalate sep [x] = x := by
  simp [List.intercalate]

theorem intercalate_cons_cons_eq {α : Type} (sep x y : List α)
    (zs : List (List α)) :
    List.intercalate sep (x :: y :: zs) = x ++ sep ++ List.intercalate sep (y :: zs) := by
  simp [List.intercalate, List.flatten]

theorem length_intercalate_replicate {α : Type} (sep b : List α) :
    ∀ n, (List.intercalate sep (List.replicate (n + 1) b)).length =
      (n + 1) * b.length + n * sep.length := by
  intro n
  induction n with
  | zero => simp [intercalate_singleton_eq]
  | succ m ih =>
    rw [show (m + 1 + 1) = (m + 1) + 1 from rfl, List.replicate_succ,
      List.replicate_succ, intercalate_cons_cons_eq, ← List.replicate_succ,
      List.length_append, List.length_append, ih]
    ring

theorem mem_intercalate_replicate {α : Type} (sep b : List α) (c : α) :
    ∀ n, c ∈ List.intercalate sep (List.replicate n b) → c ∈ b ∨ c ∈ sep := by
  intro n
  induction n with
  | zero =>
    intro h
    simp [List.intercalate] at h
  | succ m ih =>
    cases m with
    | zero =>
      intro h
      rw [List.replicate_succ, List.replicate_zero, intercalate_singleton_eq] at h
      exact Or.inl h
    | succ k =>
      intro h
      rw [List.replicate_succ, List.replicate_succ, intercalate_cons_cons_eq,
        ← List.replicate_succ] at h
      rcases List.mem_append.mp h with h1 | h2
      · rcases List.mem_append.mp h1 with h3 | h4
        · exact Or.inl h3
        · exact Or.inr h4
      · exact ih h2

/-- `s.includes(sub)` ignores a leading block that never holds the first
character of `sub`. -/
theorem hasSubstr_append_of_head_notMem (c : Char) (rest B : Str) :
    ∀ A : Str, c ∉ A →
      hasSubstr (A ++ B) (c :: rest) = hasSubstr B (c :: rest) := by
  intro A
  induction A with
  | nil => intro _; rfl
  | cons a tl ih =>
    intro hc
    have hca : c ≠ a := by
      intro he
      exact hc (by simp [he])
    have hba : (c == a) = false := beq_eq_false_iff_ne.mpr hca
    simp only [List.cons_append, hasSubstr, List.isPrefixOf, hba, Bool.false_and,
      Bool.false_or]
    exact ih (fun hm => hc (List.mem_cons_of_mem a hm))

/-- When every item of a batch yields the same record, the success list is
that record replicated. -/
theorem successResults_const (env : Env) (r₀ : OCRResult) :
    ∀ imgs : List SlackFile,
      (∀ img ∈ imgs, itemResult env img = .ok (some r₀)) →
      successResults env imgs = List.replicate imgs.length r₀ := by
  intro imgs
  induction imgs with
  | nil => intro _; simp [successResults]
  | cons img rest ih =>
    intro h
    rw [successResults_cons_ok env img rest r₀ (h img (by simp)),
      ih (fun i hi => h i (by simp [hi]))]
    simp [List.replicate_succ]

theorem bigEnv_itemResult (id : Str) :
    itemResult bigEnv (mkFile id) = .ok (some longres) := by
  have hne2 : ¬(str "http://u/" ++ id = []) := by simp [str]
  simp [itemResult, jsUrl, jsOrStr, mkFile, bigEnv, hne2]

theorem bigFiles_length : bigFiles.length = 51 := by
  simp [bigFiles]

theorem bigEnv_all_items :
    ∀ img ∈ bigFiles.take MAX_IMAGES, itemResult bigEnv img = .ok (some longres) := by
  intro img himg
  have hmem : img ∈ bigFiles := List.take_subset _ _ himg
  simp only [bigFiles, List.mem_map] at hmem
  obtain ⟨i, _, rfl⟩ := hmem
  exact bigEnv_itemResult (natStr i)

theorem bigEnv_successResults :
    successResults bigEnv (bigFiles.take MAX_IMAGES) = List.replicate 50 longres := by
  rw [successResults_const bigEnv longres _ bigEnv_all_items]
  congr 1

theorem longres_block :
    formatOne true longres = (str "*" ++ str "t.png" ++ str "*\n\n")
      ++ List.replicate 800 'a' := rfl

theorem longres_block_length : (formatOne true longres).length = 809 := by
  have h9 : (str "*" ++ str "t.png" ++ str "*\n\n").length = 9 := by decide
  rw [longres_block, List.length_append, h9, List.length_replicate]

theorem big_format :
    formatOCRResultsForSlack (List.replicate 50 longres) =
      List.intercalate (str "\n\n---\n\n")
        (List.replicate 50 (formatOne true longres)) := by
  unfold formatOCRResultsForSlack
  rw [if_neg (by simp), List.map_replicate]
  simp

theorem big_format_length :
    (formatOCRResultsForSlack (List.replicate 50 longres)).length = 40793 := by
  rw [big_format,
    show (50 : Nat) = 49 + 1 from rfl,
    length_intercalate_replicate (str "\n\n---\n\n") (formatOne true longres) 49,
    longres_block_length]
  have hsep : (str "\n\n---\n\n").length = 7 := by decide
  rw [hsep]

theorem big_eligible :
    eligibleImages false (findImagesInThread bigMsgs) [] = bigFiles := by
  decide

theorem big_body :
    composedBody (decide (bigFiles.length > MAX_IMAGES)) bigFiles.length
      (successResults bigEnv (bigFiles.take MAX_IMAGES)) =
      formatOCRResultsForSlack (List.replicate 50 longres)
        ++ capNote (bigFiles.length - MAX_IMAGES) := by
  have hlim : decide (bigFiles.length > MAX_IMAGES) = true := by
    rw [bigFiles_length]
    decide
  rw [hlim]
  unfold composedBody
  rw [if_pos rfl, bigEnv_successResults]

theorem big_body_long :
    SLACK_MAX_TEXT_LENGTH <
      (formatOCRResultsForSlack (List.replicate 50 longres)
        ++ capNote (bigFiles.length - MAX_IMAGES)).length := by
  rw [List.length_append, big_format_length]
  have h38 : SLACK_MAX_TEXT_LENGTH = 38000 := rfl
  omega

theorem bigFinal_eq :
    bigFinal =
      (formatOCRResultsForSlack (List.replicate 50 longres)
          ++ capNote (bigFiles.length - MAX_IMAGES)).take
        (SLACK_MAX_TEXT_LENGTH - truncationNotice.length) ++ truncationNotice := by
  unfold bigFinal
  rw [big_eligible, big_body]
  exact adaptResponse_long_eq _ big_body_long

/-- C6 counterexample — the claim as stated is false: in this run 51 images
are eligible (more than the cap of 50) and every capped item succeeds, so the
claim's scenario holds, yet the rendered body of the 50 results overflows the
local limit, the pre-publish truncation cuts the tail off — where the cap
note had just been appended — and the published message contains no "more
images remain unprocessed" note (the phrase every cap note carries); it ends
with the truncation notice instead. -/
theorem cap_enforcement_counterexample :
    MAX_IMAGES < (eligibleImages false (findImagesInThread bigMsgs) []).length
    ∧ (∀ img ∈ (eligibleImages false (findImagesInThread bigMsgs) []).take
        MAX_IMAGES, itemOk bigEnv img = true)
    ∧ ((processThread bigEnv false).1).getLast? = some (Event.update bigFinal)
    ∧ hasSubstr bigFinal (str "more images remain unprocessed") = false
    ∧ hasSubstr
        (capNote ((eligibleImages false (findImagesInThread bigMsgs) []).length
          - MAX_IMAGES))
        (str "more images remain unprocessed") = true
    ∧ truncationNotice <:+ bigFinal := by
  have hM : MAX_IMAGES = 50 := rfl
  refine ⟨?_, ?_, ?_, ?_, ?_, ?_⟩
  · rw [big_eligible, bigFiles_length]
    omega
  · intro img himg
    rw [big_eligible] at himg
    exact (itemOk_iff bigEnv img).mpr ⟨longres, bigEnv_all_items img himg⟩
  · have hthm := processThread_happy bigEnv false (str "ts") bigMsgs [] rfl rfl
      (by decide) (fun _ => rfl) (fun _ => rfl)
      (by rw [big_eligible]; decide) (fun _ => rfl) (fun _ => rfl)
    rw [hthm]
    show (happyTrace bigEnv
      (eligibleImages false (findImagesInThread bigMsgs) [])).getLast? = _
    rw [happyTrace_getLast]
    rw [if_neg (by
      rw [big_eligible, bigEnv_successResults, List.length_replicate]
      omega)]
    rfl
  · have htk : (formatOCRResultsForSlack (List.replicate 50 longres)
        ++ capNote (bigFiles.length - MAX_IMAGES)).take
          (SLACK_MAX_TEXT_LENGTH - truncationNotice.length) =
        (formatOCRResultsForSlack (List.replicate 50 longres)).take
          (SLACK_MAX_TEXT_LENGTH - truncationNotice.length) := by
      apply List.take_append_of_le_length
      rw [big_format_length]
      have hn := truncationNotice_le
      have h38 : SLACK_MAX_TEXT_LENGTH = 38000 := rfl
      omega
    have hmA : 'm' ∉ (formatOCRResultsForSlack (List.replicate 50 longres)).take
        (SLACK_MAX_TEXT_LENGTH - truncationNotice.length) := by
      intro hm
      have hmF := List.take_subset _ _ hm
      rw [big_format] at hmF
      rcases mem_intercalate_replicate (str "\n\n---\n\n")
          (formatOne true longres) 'm' 50 hmF with hb | hs
      · rw [longres_block] at hb
        rcases List.mem_append.mp hb with hh | ha
        · exact absurd hh (by decide)
        · exact absurd (List.eq_of_mem_replicate ha) (by decide)
      · exact absurd hs (by decide)
    have hphrase : str "more images remain unprocessed" =
        'm' :: str "ore images remain unprocessed" := rfl
    rw [bigFinal_eq, htk, hphrase,
      hasSubstr_append_of_head_notMem 'm' (str "ore images remain unprocessed")
        truncationNotice _ hmA]
    decide
  · rw [big_eligible, bigFiles_length]
    decide
  · rw [bigFinal_eq]
    exact List.suffix_append _ _

/-- C8 counterexample — the claim fails at `N = 1`: with a single eligible
image the per-item progress update is skipped entirely, so the status message
is mutated 2 times, not `N + 2 = 3` times. -/
theorem progress_updates_counterexample :
    (((processThread (exEnv [mkFile (str "F1")] []) false).1).filter
        isUpdateEvent).length = 2
    ∧ ((2 : Nat) = 1 + 2 → False) := by
  constructor
  · decide
  · decide

/-- C8 (amended) — Per-item progress reporting: on a run that reaches the
batch loop with every item succeeding and every update accepted, the
status-message mutations are exactly: the count update, then — only when the
batch has `N ≥ 2` items — one `i of N` progress update per item in order,
then the terminal result update; so the message is mutated `N + 2` times when
`N ≥ 2` and only `2` times when `N = 1`. -/
theorem progress_updates (env : Env) (force : Bool) (ts : Str)
    (msgs : List SlackMessage) (pids : List Str)
    (hpost : env.post processingMsg = .ok ts)
    (hmsgs : env.getMessages = .ok msgs)
    (hne : findImagesInThread msgs ≠ [])
    (hledger : force = false → env.getLedger = .ok pids)
    (hpids0 : force = true → pids = [])
    (hun : eligibleImages force (findImagesInThread msgs) pids ≠ [])
    (hok : ∀ img ∈ (eligibleImages force (findImagesInThread msgs) pids).take
      MAX_IMAGES, itemOk env img = true)
    (hupd : ∀ text, env.update text = .ok ())
    (hmark : ∀ l, env.mark l = .ok ()) :
    ((processThread env force).1).filter isUpdateEvent =
      Event.update (countMsg
        ((eligibleImages force (findImagesInThread msgs) pids).take
          MAX_IMAGES).length)
      :: ((if 1 < ((eligibleImages force (findImagesInThread msgs) pids).take
              MAX_IMAGES).length then
            (List.range ((eligibleImages force (findImagesInThread msgs) pids).take
                MAX_IMAGES).length).map
              (fun j => Event.update (progressMsg (j + 1)
                ((eligibleImages force (findImagesInThread msgs) pids).take
                  MAX_IMAGES).length))
          else [])
        ++ [Event.update (adaptResponse (composedBody
            (decide ((eligibleImages force (findImagesInThread msgs) pids).length
              > MAX_IMAGES))
            (eligibleImages force (findImagesInThread msgs) pids).length
            (successResults env ((eligibleImages force (findImagesInThread msgs)
              pids).take MAX_IMAGES))))])
    ∧ (1 < ((eligibleImages force (findImagesInThread msgs) pids).take
          MAX_IMAGES).length →
        (((processThread env force).1).filter isUpdateEvent).length =
          ((eligibleImages force (findImagesInThread msgs) pids).take
            MAX_IMAGES).length + 2)
    ∧ (((eligibleImages force (findImagesInThread msgs) pids).take
          MAX_IMAGES).length = 1 →
        (((processThread env force).1).filter isUpdateEvent).length = 2) := by
  set u := eligibleImages force (findImagesInThread msgs) pids with hu
  have hthm := processThread_happy env force ts msgs pids hpost hmsgs hne hledger
    hpids0 hun hupd hmark
  have htne : (u.take MAX_IMAGES).length ≠ 0 := by
    have : u.length ≠ 0 := by simpa [List.length_eq_zero] using hun
    rw [List.length_take]
    have hM : MAX_IMAGES = 50 := rfl
    omega
  have hres : (successResults env (u.take MAX_IMAGES)).length =
      (u.take MAX_IMAGES).length :=
    successResults_length_of_all_ok env (u.take MAX_IMAGES) hok
  have hfin : happyFinal env u = [Event.update (adaptResponse (composedBody
      (decide (u.length > MAX_IMAGES)) u.length
      (successResults env (u.take MAX_IMAGES))))] := by
    unfold happyFinal
    rw [if_neg (by omega)]
  have hflt : ((processThread env force).1).filter isUpdateEvent =
      Event.update (countMsg (u.take MAX_IMAGES).length)
        :: ((if 1 < (u.take MAX_IMAGES).length then
              (List.range (u.take MAX_IMAGES).length).map
                (fun j => Event.update (progressMsg (j + 1)
                  (u.take MAX_IMAGES).length))
            else [])
          ++ [Event.update (adaptResponse (composedBody
              (decide (u.length > MAX_IMAGES)) u.length
              (successResults env (u.take MAX_IMAGES))))]) := by
    rw [hthm]
    show (happyTrace env u).filter isUpdateEvent = _
    rw [happyTrace_updates env u htne, hfin]
  refine ⟨hflt, ?_, ?_⟩
  · intro hN
    rw [hflt]
    rw [if_pos hN]
    simp
  · intro hN
    rw [hflt]
    rw [if_neg (by omega)]
    simp

/-- Witness for C8 (amended) at a two-image batch: `2 + 2` mutations. -/
theorem progress_updates_witness :
    (((processThread (exEnv [mkFile (str "F1"), mkFile (str "F2")] [])
        false).1).filter isUpdateEvent).length =
      ((eligibleImages false (findImagesInThread
          [⟨str "1", none, none, none,
            some [mkFile (str "F1"), mkFile (str "F2")]⟩]) []).take
        MAX_IMAGES).length + 2 :=
  (progress_updates (exEnv [mkFile (str "F1"), mkFile (str "F2")] []) false
    (str "ts")
    [⟨str "1", none, none, none, some [mkFile (str "F1"), mkFile (str "F2")]⟩]
    [] rfl rfl (by decide) (fun _ => rfl) (fun _ => rfl) (by decide) (by decide)
    (fun _ => rfl) (fun _ => rfl)).2.1 (by decide)

/-- C10 — Returned counts: on a run that reaches the batch loop,
`skippedCount` is the number of ids read from the ledger before filtering
(`0` in force mode, where the ledger is not read), not a count derived from
the thread's current images; and `processedCount` counts exactly the batch
items that succeed, so items that fail inside the loop are counted in
neither. -/
theorem skipped_count_semantics (env : Env) (force : Bool) (ts : Str)
    (msgs : List SlackMessage) (pids : List Str)
    (hpost : env.post processingMsg = .ok ts)
    (hmsgs : env.getMessages = .ok msgs)
    (hne : findImagesInThread msgs ≠ [])
    (hledger : force = false → env.getLedger = .ok pids)
    (hpids0 : force = true → pids = [])
    (hun : eligibleImages force (findImagesInThread msgs) pids ≠ [])
    (hupd : ∀ text, env.update text = .ok ())
    (hmark : ∀ l, env.mark l = .ok ()) :
    (processThread env force).2 =
      .ok ⟨true,
        processedMsg (successResults env ((eligibleImages force
          (findImagesInThread msgs) pids).take MAX_IMAGES)).length,
        (successResults env ((eligibleImages force (findImagesInThread msgs)
          pids).take MAX_IMAGES)).length,
        if force = true then 0 else pids.length⟩
    ∧ (successResults env ((eligibleImages force (findImagesInThread msgs)
        pids).take MAX_IMAGES)).length =
      (((eligibleImages force (findImagesInThread msgs) pids).take
        MAX_IMAGES).filter (fun img => itemOk env img)).length := by
  have hthm := processThread_happy env force ts msgs pids hpost hmsgs hne hledger
    hpids0 hun hupd hmark
  refine ⟨?_, successResults_length_filter env _⟩
  rw [hthm]
  show Except.ok (happyRecord env pids
    (eligibleImages force (findImagesInThread msgs) pids)) = _
  unfold happyRecord
  cases force with
  | true => rw [hpids0 rfl]; rfl
  | false => rfl

/-- Witness for C10: one unprocessed image against a ledger holding three
foreign ids — the returned `skippedCount` is 3, exceeding the single image in
the thread. -/
theorem skipped_count_semantics_witness :
    (processThread (exEnv [mkFile (str "X")] [str "A", str "B", str "C"])
        false).2 =
      .ok ⟨true, processedMsg 1, 1, 3⟩
    ∧ (findImagesInThread [⟨str "1", none, none, none,
        some [mkFile (str "X")]⟩]).length = 1 :=
  ⟨(skipped_count_semantics
      (exEnv [mkFile (str "X")] [str "A", str "B", str "C"]) false (str "ts")
      [⟨str "1", none, none, none, some [mkFile (str "X")]⟩]
      [str "A", str "B", str "C"]
      rfl rfl (by decide) (fun _ => rfl) (fun h => by cases h) (by decide)
      (fun _ => rfl) (fun _ => rfl)).1,
    by decide⟩

end OcrBot
